import Mathlib

/-!
Shallow embedding of the duckdb-eurostat extension core
(`src/eurostat/eurostat.cpp`, `src/eurostat/eurostat.hpp`,
`src/eurostat/filter_encoder.cpp`, `src/eurostat/eurostat_data_functions.cpp`)
together with theorems settling the frozen claims about it.

Strings are modelled as Lean `String`s; machine integers (`int`, `int32_t`,
`column_t = uint64_t`) are modelled as `Int`/`Nat` with explicit wrap-around
where the C++ performs a narrowing conversion.  Out-of-bounds accesses of
`std::vector::operator[]`/`std::string` (undefined behaviour in C++) are made
explicit: functions that may perform one return `Except`/`Option` and signal
the out-of-range branch instead of producing a value.
-/

namespace EurostatSpec

/-! ## C++ string helpers

`std::getline(stream, token, sep)` tokenisation over a string yields every
separator-delimited field except that the trailing empty field after a final
separator is not produced (and the empty input yields no token at all).
We model it by an explicit structural split over the character list followed
by dropping a trailing empty field. -/

/-- Split a character list at every occurrence of `sep` (plain split:
`"" ↦ [""]`, a trailing separator yields a trailing empty field). -/
def splitChars (sep : Char) : List Char → List (List Char)
  | [] => [[]]
  | c :: rest =>
    match splitChars sep rest with
    | [] => [[c]]
    | g :: gs => if c = sep then [] :: g :: gs else (c :: g) :: gs

/-- Drop a trailing empty field, as `std::getline` never produces one. -/
def dropLastEmpty (l : List String) : List String :=
  match l.getLast? with
  | some "" => l.dropLast
  | _ => l

/-- Tokenisation of `s` by repeated `std::getline(stream, token, sep)`. -/
def cppGetlineSplit (sep : Char) (s : String) : List String :=
  dropLastEmpty ((splitChars sep s.data).map String.mk)

/-- The whitespace set of `std::isspace` in the default locale, used by
`StringUtil::Trim`. -/
def isSpaceCpp (c : Char) : Bool :=
  c = ' ' || c = '\t' || c = '\n' || c = '\r' || c = '\x0b' || c = '\x0c'

/-- `StringUtil::Trim`: remove whitespace from both ends. -/
def trimCpp (s : String) : String :=
  String.mk (((s.data.dropWhile isSpaceCpp).reverse.dropWhile isSpaceCpp).reverse)

/-- `s.pop_back()` (defined only on non-empty strings; callers guard). -/
def popBack (s : String) : String :=
  String.mk s.data.dropLast

/-- Narrowing conversion `(int)x` of a `uint64_t` value `x` (two's complement
truncation to 32 bits, as every mainstream C++ implementation does). -/
def toInt32 (n : Nat) : Int :=
  let r := n % 4294967296
  if r < 2147483648 then (r : Int) else (r : Int) - 4294967296

/-! ## Geo-Level Classifier (`eurostat.cpp`, `eurostat.hpp`) -/

/-- The keys of the `COUNTRY_CODES` map of `eurostat.hpp` (the mapped country
names are never read by the code under test, only key membership is). -/
def COUNTRY_CODES : List String :=
  ["BE", "BG", "CZ", "DK", "DE", "EE", "IE", "EL", "ES", "FR", "HR", "IT",
   "CY", "LV", "LT", "LU", "HU", "MT", "NL", "AT", "PL", "PT", "RO", "SI",
   "SK", "FI", "SE",
   "IS", "LI", "NO", "CH",
   "BA", "ME", "MD", "MK", "GE", "AL", "RS", "TR", "UA",
   "XK",
   "AM", "BY", "AZ",
   "DZ", "EG", "IL", "JO", "LB", "LY", "MA", "PS", "SY", "TN",
   "AR", "AU", "BR", "CA", "CN_X_HK", "HK", "IN", "JP", "MX", "NG", "NZ",
   "RU", "SG", "ZA", "KR", "TW", "UK", "US"]

/-- `COUNTRY_CODES.find(x) != COUNTRY_CODES.end()`. -/
def isCountryCode (cs : List Char) : Bool :=
  COUNTRY_CODES.contains (String.mk cs)

/-- `STARTS_WITH(str, p)`: `strlen(p) <= str.size() && strncmp(str, p, strlen(p)) == 0`. -/
def startsWithChars (s p : List Char) : Bool :=
  p.isPrefixOf s

/-- The supranational-aggregate test of `GetGeoLevelFromGeoCode`
(`eurostat.cpp:13`): the code starts with `EU`, `EA` or `EFTA`. -/
def supranationalStart (cs : List Char) : Bool :=
  startsWithChars cs ['E', 'U'] || startsWithChars cs ['E', 'A'] ||
    startsWithChars cs ['E', 'F', 'T', 'A']

/-- `eurostat::Dimension::GetGeoLevelFromGeoCode`, on the character list. -/
def geoLevelOfChars (cs : List Char) : String :=
  if supranationalStart cs then
    "aggregate"
  else if cs.length = 2 then
    if isCountryCode cs then "country" else "unknown"
  else if cs.length = 3 then
    if isCountryCode (cs.take 2) then "nuts1" else "unknown"
  else if cs.length = 4 then
    if isCountryCode (cs.take 2) then "nuts2" else "unknown"
  else if cs.length = 5 then
    if isCountryCode (cs.take 2) then "nuts3" else "unknown"
  else if cs.length = 7 then
    if isCountryCode (cs.take 2) && cs.getD 2 ' ' = '_' then "city" else "unknown"
  else
    "unknown"

/-- `eurostat::Dimension::GetGeoLevelFromGeoCode` (`eurostat.cpp:7-32`). -/
def GetGeoLevelFromGeoCode (geo_code : String) : String :=
  geoLevelOfChars geo_code.data

/-! ## Dimension schema and filter branch model (`filter_encoder.hpp/.cpp`) -/

/-- `eurostat::Dimension` (`eurostat.hpp:122-134`).  The optional `values`
list is never read by the filter encoder or the data scan and is omitted. -/
structure Dimension where
  position : Int
  name : String
  concept_label : String
deriving DecidableEq

/-- `VIRTUAL_DIMENSION_FLAG` (`filter_encoder.cpp:37`). -/
def VIRTUAL_DIMENSION_FLAG : String := "---"

/-- `TIME_PERIOD_DIMENSION_NAME` (`filter_encoder.cpp:40`). -/
def TIME_PERIOD_DIMENSION_NAME : String := "time_period"

/-- One filter branch (`EurostatFilter`, `filter_encoder.hpp:13-33`).  The
`data_structure` reference member is threaded separately. -/
structure EurostatFilter where
  dim_mask : List String
  start_period : String
  end_period : String
deriving DecidableEq

/-- The initial mask entry for one dimension, per the `EurostatFilter`
constructor (`filter_encoder.cpp:42-50`). -/
def initMaskEntry (dim : Dimension) : String :=
  if dim.position = -1 ∨ dim.name = TIME_PERIOD_DIMENSION_NAME then
    VIRTUAL_DIMENSION_FLAG
  else ""

/-- `EurostatFilter::EurostatFilter(ds)`. -/
def mkEurostatFilter (ds : List Dimension) : EurostatFilter :=
  { dim_mask := ds.map initMaskEntry, start_period := "", end_period := "" }

/-- `EurostatFilter::IsEmpty` (`filter_encoder.cpp:52-62`): no period bound
and every mask entry empty or the virtual flag. -/
def EurostatFilter.IsEmpty (f : EurostatFilter) : Bool :=
  f.start_period = "" && f.end_period = "" &&
    f.dim_mask.all (fun m => m = "" || m = VIRTUAL_DIMENSION_FLAG)

/-- The dimension-selector part of `EurostatFilter::GetFilterString`
(`filter_encoder.cpp:69-82`), as a fold over the mask with the accumulated
clause (appending an empty mask entry is a no-op, so the source's
`if (!m.empty())` guard is dropped). -/
def maskClause : List String → String → String
  | [], acc => acc
  | m :: rest, acc =>
    if m = VIRTUAL_DIMENSION_FLAG then maskClause rest acc
    else maskClause rest ((if acc = "" then "/" else acc) ++ m ++ ".")

/-- `EurostatFilter::GetFilterString` (`filter_encoder.cpp:64-101`). -/
def EurostatFilter.GetFilterString (f : EurostatFilter) : String :=
  let c0 := maskClause f.dim_mask ""
  let c1 := if c0 = "" then c0 else popBack c0
  let c2 := c1 ++ "?"
  let c3 := if f.start_period = "" then c2 else c2 ++ f.start_period ++ "&"
  if f.end_period = "" then c3 else c3 ++ f.end_period ++ "&"

/-- `EurostatFilterSet` (`filter_encoder.hpp:38-60`); its constructor pushes
one empty filter and leaves `supported = false`. -/
structure EurostatFilterSet where
  data_structure : List Dimension
  filters : List EurostatFilter
  supported : Bool
deriving DecidableEq

/-- `EurostatFilterSet::EurostatFilterSet(ds)`. -/
def initFilterSet (ds : List Dimension) : EurostatFilterSet :=
  { data_structure := ds, filters := [mkEurostatFilter ds], supported := false }

/-- `EurostatFilterSet::PushEmptyFilter` (`filter_encoder.cpp:103-106`). -/
def EurostatFilterSet.PushEmptyFilter (s : EurostatFilterSet) : EurostatFilterSet :=
  { s with filters := s.filters ++ [mkEurostatFilter s.data_structure] }

/-- `EurostatFilterSet::GetCurrentFilter` = `filters.back()`; the filter list
is non-empty in every reachable state. -/
def EurostatFilterSet.GetCurrentFilter (s : EurostatFilterSet) : EurostatFilter :=
  s.filters.getLastD (mkEurostatFilter s.data_structure)

/-- Writing through the `filters.back()` reference. -/
def EurostatFilterSet.SetCurrentFilter (s : EurostatFilterSet) (f : EurostatFilter) :
    EurostatFilterSet :=
  { s with filters := s.filters.dropLast ++ [f] }

/-- `out_result.supported = false`. -/
def EurostatFilterSet.markUnsupported (s : EurostatFilterSet) : EurostatFilterSet :=
  { s with supported := false }

/-- `FilterEncoderResult` (`filter_encoder.hpp:65-70`). -/
structure FilterEncoderResult where
  filters : List String
  supported : Bool
deriving DecidableEq

/-- The final emission loop shared by `Encode` and `EncodeExpression`
(`filter_encoder.cpp:310-315` / `351-356`): every non-empty branch
contributes its filter string. -/
def emitFilters (s : EurostatFilterSet) : List String :=
  (s.filters.filter (fun f => !f.IsEmpty)).map EurostatFilter.GetFilterString

/-! ## Encoder inputs -/

/-- A `duckdb::Value`: null flag plus its `ToString()` rendering. -/
structure EsValue where
  is_null : Bool
  to_string : String
deriving DecidableEq

/-- The `duckdb::ExpressionType` constructors distinguished by the encoder;
every other type behaves like `OTHER_TYPE`. -/
inductive ExpressionType where
  | COMPARE_EQUAL
  | COMPARE_GREATERTHANOREQUALTO
  | COMPARE_LESSTHANOREQUALTO
  | COMPARE_IN
  | CONJUNCTION_AND
  | CONJUNCTION_OR
  | OTHER_TYPE
deriving DecidableEq

/-- `ConstantFilter`: comparison type and constant. -/
structure ConstantFilter where
  comparison_type : ExpressionType
  constant : EsValue
deriving DecidableEq

/-- `InFilter`: list of values. -/
structure InFilter where
  values : List EsValue
deriving DecidableEq

/-- The `TableFilter` shapes distinguished by `FilterEncoder::EncodeFilter`;
every other `TableFilterType` behaves like `otherFilter`. -/
inductive TableFilter where
  | constantComparison (comparison_type : ExpressionType) (constant : EsValue)
  | inFilter (values : List EsValue)
  | conjunctionAnd (child_filters : List TableFilter)
  | conjunctionOr (child_filters : List TableFilter)
  | optionalFilter (child_filter : Option TableFilter)
  | otherFilter

/-- Encoder-level abnormal outcomes: an out-of-bounds
`std::vector::operator[]` access (undefined behaviour in the C++), and the
`InvalidInputException` thrown for a malformed IN operator. -/
inductive EncErr where
  | outOfRange
  | invalidInput
deriving DecidableEq

/-- `FilterEncoder::GetComparisonOperator` (`filter_encoder.cpp:112-120`). -/
def GetComparisonOperator : ExpressionType → Option String
  | .COMPARE_EQUAL => some "="
  | _ => none

/-! ## TableFilter encoding (`filter_encoder.cpp:122-243`) -/

/-- `FilterEncoder::EncodeConstantComparison` (`filter_encoder.cpp:151-190`).
Returns the C++ `bool` result together with the updated filter set; the
mask access `dim_mask[dim_index]` is out of range when `dim_index` is not
below the mask length. -/
def EncodeConstantComparison (filter : ConstantFilter) (dimension : Dimension)
    (dim_index : Nat) (out_result : EurostatFilterSet) :
    Except EncErr (Bool × EurostatFilterSet) :=
  if filter.constant.is_null then
    .ok (false, out_result.markUnsupported)
  else
    let out_filter := out_result.GetCurrentFilter
    if dimension.name = TIME_PERIOD_DIMENSION_NAME then
      if filter.comparison_type = .COMPARE_GREATERTHANOREQUALTO then
        .ok (true, out_result.SetCurrentFilter
          { out_filter with start_period := "startPeriod=" ++ filter.constant.to_string })
      else if filter.comparison_type = .COMPARE_LESSTHANOREQUALTO then
        .ok (true, out_result.SetCurrentFilter
          { out_filter with end_period := "endPeriod=" ++ filter.constant.to_string })
      else if filter.comparison_type = .COMPARE_EQUAL then
        .ok (true, out_result.SetCurrentFilter
          { out_filter with
              start_period := "startPeriod=" ++ filter.constant.to_string,
              end_period := "endPeriod=" ++ filter.constant.to_string })
      else
        .ok (false, out_result.markUnsupported)
    else
      match GetComparisonOperator filter.comparison_type with
      | none => .ok (false, out_result.markUnsupported)
      | some _ =>
        match out_filter.dim_mask.get? dim_index with
        | none => .error .outOfRange
        | some mask_v =>
          let mask_v2 :=
            if mask_v = "" then filter.constant.to_string
            else mask_v ++ "+" ++ filter.constant.to_string
          .ok (true, out_result.SetCurrentFilter
            { out_filter with dim_mask := out_filter.dim_mask.set dim_index mask_v2 })

/-- The loop body of `FilterEncoder::EncodeInFilter` (`filter_encoder.cpp:199-206`). -/
def encodeInValues (dimension : Dimension) (dim_index : Nat) :
    List EsValue → EurostatFilterSet → Except EncErr (Bool × EurostatFilterSet)
  | [], s => .ok (true, s)
  | v :: rest, s =>
    match EncodeConstantComparison ⟨.COMPARE_EQUAL, v⟩ dimension dim_index s with
    | .error e => .error e
    | .ok (false, s') => .ok (false, s'.markUnsupported)
    | .ok (true, s') => encodeInValues dimension dim_index rest s'

/-- `FilterEncoder::EncodeInFilter` (`filter_encoder.cpp:192-208`). -/
def EncodeInFilter (filter : InFilter) (dimension : Dimension) (dim_index : Nat)
    (out_result : EurostatFilterSet) : Except EncErr (Bool × EurostatFilterSet) :=
  if dimension.name = TIME_PERIOD_DIMENSION_NAME ∧ filter.values.length > 1 then
    .ok (false, out_result.markUnsupported)
  else
    encodeInValues dimension dim_index filter.values out_result

mutual

/-- `FilterEncoder::EncodeFilter` (`filter_encoder.cpp:122-149`). -/
def EncodeFilter (filter : TableFilter) (dimension : Dimension) (dim_index : Nat)
    (out_result : EurostatFilterSet) : Except EncErr (Bool × EurostatFilterSet) :=
  match filter with
  | .constantComparison ty c =>
    EncodeConstantComparison ⟨ty, c⟩ dimension dim_index out_result
  | .inFilter vs => EncodeInFilter ⟨vs⟩ dimension dim_index out_result
  | .conjunctionAnd ch =>
    if ch.isEmpty then .ok (false, out_result.markUnsupported)
    else encodeAndChildren ch dimension dim_index out_result
  | .conjunctionOr ch =>
    if ch.isEmpty then .ok (false, out_result.markUnsupported)
    else encodeOrChildren ch dimension dim_index out_result
  | .optionalFilter none => .ok (true, out_result)
  | .optionalFilter (some f) => EncodeFilter f dimension dim_index out_result
  | .otherFilter => .ok (false, out_result.markUnsupported)

/-- The loop of `FilterEncoder::EncodeConjunctionAnd` (`filter_encoder.cpp:218-224`). -/
def encodeAndChildren (children : List TableFilter) (dimension : Dimension)
    (dim_index : Nat) (out_result : EurostatFilterSet) :
    Except EncErr (Bool × EurostatFilterSet) :=
  match children with
  | [] => .ok (true, out_result)
  | f :: rest =>
    match EncodeFilter f dimension dim_index out_result with
    | .error e => .error e
    | .ok (false, s') => .ok (false, s'.markUnsupported)
    | .ok (true, s') => encodeAndChildren rest dimension dim_index s'

/-- The loop of `FilterEncoder::EncodeConjunctionOr` (`filter_encoder.cpp:235-241`):
a fresh empty branch is pushed after each successfully encoded child. -/
def encodeOrChildren (children : List TableFilter) (dimension : Dimension)
    (dim_index : Nat) (out_result : EurostatFilterSet) :
    Except EncErr (Bool × EurostatFilterSet) :=
  match children with
  | [] => .ok (true, out_result)
  | f :: rest =>
    match EncodeFilter f dimension dim_index out_result with
    | .error e => .error e
    | .ok (false, s') => .ok (false, s'.markUnsupported)
    | .ok (true, s') => encodeOrChildren rest dimension dim_index s'.PushEmptyFilter

end

/-! ## `FilterEncoder::Encode` (`filter_encoder.cpp:245-319`) -/

/-- `constexpr column_t VIRTUAL_COL_START = 2^63`. -/
def VIRTUAL_COL_START : Nat := 9223372036854775808

/-- Column-index mapping of `Encode` (`filter_encoder.cpp:268-279`): with no
projection the filter index is the table index, otherwise an index outside
the projection fails and otherwise it maps through `column_ids`. -/
def resolveCol (column_ids : List Nat) (projected_col_idx : Nat) : Option Nat :=
  if column_ids = [] then some projected_col_idx
  else column_ids.get? projected_col_idx

/-- The entry loop of `Encode` (`filter_encoder.cpp:264-305`).  `some s`
means every entry was encoded; `none` is the early `supported = false`
return. -/
def encodeEntries (ds : List Dimension) (column_ids : List Nat) :
    List (Nat × TableFilter) → EurostatFilterSet → Except EncErr (Option EurostatFilterSet)
  | [], s => .ok (some s)
  | (projected_col_idx, f) :: rest, s =>
    match resolveCol column_ids projected_col_idx with
    | none => .ok none
    | some table_col_idx =>
      if VIRTUAL_COL_START ≤ table_col_idx then .ok none
      else if hlt : table_col_idx < ds.length then
        let dimension := ds.get ⟨table_col_idx, hlt⟩
        if dimension.position = -1 then .ok none
        else
          match EncodeFilter f dimension table_col_idx s with
          | .error e => .error e
          | .ok (false, _) => .ok none
          | .ok (true, s') => encodeEntries ds column_ids rest s'
      else .ok none

/-- `FilterEncoder::Encode` (`filter_encoder.cpp:245-319`).  The
`TableFilterSet` is its entry list. -/
def Encode (filters : List (Nat × TableFilter)) (ds : List Dimension)
    (column_ids : List Nat) : Except EncErr FilterEncoderResult :=
  if filters.isEmpty then .ok { filters := [], supported := false }
  else
    match encodeEntries ds column_ids filters (initFilterSet ds) with
    | .error e => .error e
    | .ok none => .ok { filters := [], supported := false }
    | .ok (some s) =>
      let out := emitFilters s
      .ok { filters := out, supported := decide (out.length > 0) }

/-! ## Expression encoding (`filter_encoder.cpp:325-519`) -/

/-- The `duckdb::Expression` shapes distinguished by
`FilterEncoder::EncodeExpressionNode`; every other expression class behaves
like `otherExpr`. -/
inductive Expr where
  | boundColumnRef (binding_index : Nat)
  | boundConstant (value : EsValue)
  | boundComparison (ty : ExpressionType) (left right : Expr)
  | boundOperator (ty : ExpressionType) (children : List Expr)
  | boundConjunction (ty : ExpressionType) (children : List Expr)
  | boundBetween (input lower upper : Expr)
  | otherExpr

/-- `FilterEncoder::GetDimensionIndexFromColumnRef` (`filter_encoder.cpp:368-385`).
The `data_structure` parameter is unused in the source as well; the mapped
`column_t` is narrowed to `int` on return. -/
def GetDimensionIndexFromColumnRef (e : Expr) (_ds : List Dimension)
    (column_ids : List Nat) : Int :=
  match e with
  | .boundColumnRef binding_index =>
    match column_ids.get? binding_index with
    | none => -1
    | some dim_index => toInt32 dim_index
  | _ => -1

/-- The value-collection loop of the IN case (`filter_encoder.cpp:435-443`):
every remaining child must be a bound constant. -/
def collectConstants : List Expr → Option (List EsValue)
  | [] => some []
  | .boundConstant v :: rest => (collectConstants rest).map (fun vs => v :: vs)
  | _ => none

mutual

/-- `FilterEncoder::EncodeExpressionNode` (`filter_encoder.cpp:387-519`). -/
def EncodeExpressionNode (e : Expr) (ds : List Dimension) (column_ids : List Nat)
    (out_result : EurostatFilterSet) : Except EncErr (Bool × EurostatFilterSet) :=
  match e with
  | .boundComparison ty left right =>
    match left, right with
    | .boundColumnRef b, .boundConstant v =>
      let dimIdx := GetDimensionIndexFromColumnRef (.boundColumnRef b) ds column_ids
      if dimIdx = -1 then .ok (false, out_result.markUnsupported)
      else if hlt : 0 ≤ dimIdx ∧ dimIdx.toNat < ds.length then
        EncodeConstantComparison ⟨ty, v⟩ (ds.get ⟨dimIdx.toNat, hlt.2⟩) dimIdx.toNat
          out_result
      else .error .outOfRange
    | _, _ => .ok (false, out_result.markUnsupported)
  | .boundOperator ty children =>
    if ty ≠ .COMPARE_IN then .ok (false, out_result.markUnsupported)
    else if children.length < 2 then .error .invalidInput
    else
      match children with
      | .boundColumnRef b :: rest =>
        let dimIdx := GetDimensionIndexFromColumnRef (.boundColumnRef b) ds column_ids
        if dimIdx = -1 then .ok (false, out_result.markUnsupported)
        else
          match collectConstants rest with
          | none => .ok (false, out_result.markUnsupported)
          | some vs =>
            if hlt : 0 ≤ dimIdx ∧ dimIdx.toNat < ds.length then
              EncodeInFilter ⟨vs⟩ (ds.get ⟨dimIdx.toNat, hlt.2⟩) dimIdx.toNat out_result
            else .error .outOfRange
      | _ => .ok (false, out_result.markUnsupported)
  | .boundConjunction ty children =>
    if ty = .CONJUNCTION_AND then encodeNodesAnd children ds column_ids out_result
    else if ty = .CONJUNCTION_OR then encodeNodesOr children ds column_ids out_result
    else .ok (false, out_result.markUnsupported)
  | .boundBetween input lower upper =>
    match input, lower, upper with
    | .boundColumnRef b, .boundConstant lo, .boundConstant hi =>
      let dimIdx := GetDimensionIndexFromColumnRef (.boundColumnRef b) ds column_ids
      if dimIdx = -1 then .ok (false, out_result.markUnsupported)
      else if hlt : 0 ≤ dimIdx ∧ dimIdx.toNat < ds.length then
        let dimension := ds.get ⟨dimIdx.toNat, hlt.2⟩
        if dimension.name = TIME_PERIOD_DIMENSION_NAME then
          let f := out_result.GetCurrentFilter
          .ok (true, out_result.SetCurrentFilter
            { f with
                start_period := "startPeriod=" ++ lo.to_string,
                end_period := "endPeriod=" ++ hi.to_string })
        else .ok (false, out_result.markUnsupported)
      else .error .outOfRange
    | _, _, _ => .ok (false, out_result.markUnsupported)
  | _ => .ok (false, out_result.markUnsupported)

/-- The AND loop (`filter_encoder.cpp:458-465`). -/
def encodeNodesAnd (children : List Expr) (ds : List Dimension)
    (column_ids : List Nat) (out_result : EurostatFilterSet) :
    Except EncErr (Bool × EurostatFilterSet) :=
  match children with
  | [] => .ok (true, out_result)
  | e :: rest =>
    match EncodeExpressionNode e ds column_ids out_result with
    | .error err => .error err
    | .ok (false, s') => .ok (false, s'.markUnsupported)
    | .ok (true, s') => encodeNodesAnd rest ds column_ids s'

/-- The OR loop (`filter_encoder.cpp:467-477`): a fresh empty branch is
pushed after each successfully encoded child. -/
def encodeNodesOr (children : List Expr) (ds : List Dimension)
    (column_ids : List Nat) (out_result : EurostatFilterSet) :
    Except EncErr (Bool × EurostatFilterSet) :=
  match children with
  | [] => .ok (true, out_result)
  | e :: rest =>
    match EncodeExpressionNode e ds column_ids out_result with
    | .error err => .error err
    | .ok (false, s') => .ok (false, s'.markUnsupported)
    | .ok (true, s') => encodeNodesOr rest ds column_ids s'.PushEmptyFilter

end

/-- The expression loop of `EncodeExpression` (`filter_encoder.cpp:341-346`). -/
def encodeExprList (ds : List Dimension) (column_ids : List Nat) :
    List Expr → EurostatFilterSet → Except EncErr (Bool × EurostatFilterSet)
  | [], s => .ok (true, s)
  | e :: rest, s =>
    match EncodeExpressionNode e ds column_ids s with
    | .error err => .error err
    | .ok (false, s') => .ok (false, s')
    | .ok (true, s') => encodeExprList ds column_ids rest s'

/-- `FilterEncoder::EncodeExpression` (`filter_encoder.cpp:325-366`).
Returns the result together with the `expressions` vector after the call
(it is cleared exactly when `supported` ends up true). -/
def EncodeExpression (expressions : List Expr) (ds : List Dimension)
    (column_ids : List Nat) : Except EncErr (FilterEncoderResult × List Expr) :=
  if expressions.isEmpty then .ok ({ filters := [], supported := false }, expressions)
  else
    match encodeExprList ds column_ids expressions (initFilterSet ds) with
    | .error e => .error e
    | .ok (false, _) => .ok ({ filters := [], supported := false }, expressions)
    | .ok (true, s) =>
      let out := emitFilters s
      let sup := decide (out.length > 0)
      .ok ({ filters := out, supported := sup }, if sup then [] else expressions)

/-! ## Wire parser & row deduplication (`eurostat_data_functions.cpp`) -/

/-- `ES_Read::Datarow`.  The observation value type is generic in `V`
(the result of the external `TryCast::Operation` to `double`), so that no
floating-point semantics enter the embedding. -/
structure DataRow (V : Type) where
  dimension_index : Nat
  time_period : String
  observation_value : V
deriving DecidableEq

/-- The part of `ES_Read::State` populated by parsing, together with the
`row_keys` dedup table of `Init` (an `unordered_map` used as a key set,
modelled as the list of inserted keys). -/
structure ScanState (V : Type) where
  dimensions : List (List String)
  rows : List (DataRow V)
  row_keys : List String
deriving DecidableEq

/-- The key-check loop of `ES_Read::ParseDatarow`
(`eurostat_data_functions.cpp:148-165`): for each time period, record
whether `tokens[0] ++ "|" ++ period` was already seen, inserting it
otherwise; the third component is `all_are_duplicated`. -/
def scanKeys (key0 : String) : List String → List String → List Bool × List String × Bool
  | keys, [] => ([], keys, true)
  | keys, tp :: rest =>
    let row_key := key0 ++ "|" ++ tp
    if row_key ∈ keys then
      let r := scanKeys key0 keys rest
      (true :: r.1, r.2.1, r.2.2)
    else
      let r := scanKeys key0 (keys ++ [row_key]) rest
      (false :: r.1, r.2.1, false)

/-- The observation loop of `ES_Read::ParseDatarow`
(`eurostat_data_functions.cpp:184-209`): for time period `i` the field
`tokens[i + 1]` is read (out of range ↦ `none`), trimmed, skipped when empty
or `":"`, and kept as a row when the cast succeeds. -/
def obsLoop {V : Type} (tryCast : String → Option V) (tokens : List String)
    (state_keys : List Bool) (check_keys : Bool) (dim_index : Nat) :
    List String → Nat → List (DataRow V) → Option (List (DataRow V))
  | [], _, rows => some rows
  | tp :: rest, i, rows =>
    if check_keys && state_keys.getD i false then
      obsLoop tryCast tokens state_keys check_keys dim_index rest (i + 1) rows
    else
      match tokens.get? (i + 1) with
      | none => none
      | some tok =>
        let value_str := trimCpp tok
        if value_str ≠ "" ∧ value_str ≠ ":" then
          match tryCast value_str with
          | some value =>
            obsLoop tryCast tokens state_keys check_keys dim_index rest (i + 1)
              (rows ++ [⟨dim_index, tp, value⟩])
          | none => obsLoop tryCast tokens state_keys check_keys dim_index rest (i + 1) rows
        else obsLoop tryCast tokens state_keys check_keys dim_index rest (i + 1) rows

/-- The tail of `ES_Read::ParseDatarow` after the key check
(`eurostat_data_functions.cpp:167-210`): comma-split the key field, classify
and append the geo level when a geo column is present
(`dim_values.values[geo_column_index]` out of range ↦ `none`), append the
dimension-values row, then run the observation loop. -/
def parseRowRest {V : Type} (tryCast : String → Option V) (data_table : ScanState V)
    (time_periods : List String) (geo_column_index : Int) (check_keys : Bool)
    (tokens : List String) (t0 : String) (state_keys : List Bool)
    (keys2 : List String) : Option (Bool × ScanState V) :=
  let key_vals := cppGetlineSplit ',' t0
  let dimv : Option (List String) :=
    if geo_column_index = -1 then some key_vals
    else if 0 ≤ geo_column_index then
      match key_vals.get? geo_column_index.toNat with
      | none => none
      | some gv => some (key_vals ++ [GetGeoLevelFromGeoCode gv])
    else none
  match dimv with
  | none => none
  | some dim_values =>
    let dims2 := data_table.dimensions ++ [dim_values]
    match obsLoop tryCast tokens state_keys check_keys (dims2.length - 1) time_periods 0
        data_table.rows with
    | none => none
    | some rows2 => some (true, ⟨dims2, rows2, keys2⟩)

/-- `ES_Read::ParseDatarow` (`eurostat_data_functions.cpp:128-211`). -/
def ParseDatarow {V : Type} (tryCast : String → Option V) (data_table : ScanState V)
    (time_periods : List String) (geo_column_index : Int) (line : String)
    (check_keys : Bool) : Option (Bool × ScanState V) :=
  match cppGetlineSplit '\t' line with
  | [] => some (false, data_table)
  | t0 :: tl =>
    if check_keys then
      let r := scanKeys t0 data_table.row_keys time_periods
      if r.2.2 then some (true, { data_table with row_keys := r.2.1 })
      else
        parseRowRest tryCast data_table time_periods geo_column_index check_keys
          (t0 :: tl) t0 r.1 r.2.1
    else
      parseRowRest tryCast data_table time_periods geo_column_index check_keys
        (t0 :: tl) t0 [] data_table.row_keys

/-- The data-line loop of `ES_Read::Init` (`eurostat_data_functions.cpp:312-357`,
lines after the header): empty lines are skipped, every other line is parsed. -/
def parseDataLines {V : Type} (tryCast : String → Option V) (time_periods : List String)
    (geo_column_index : Int) (check_keys : Bool) :
    ScanState V → List String → Option (ScanState V)
  | st, [] => some st
  | st, line :: rest =>
    if line = "" then parseDataLines tryCast time_periods geo_column_index check_keys st rest
    else
      match ParseDatarow tryCast st time_periods geo_column_index line check_keys with
      | none => none
      | some (_, st2) =>
        parseDataLines tryCast time_periods geo_column_index check_keys st2 rest

/-! ### Header parsing (`eurostat_data_functions.cpp:316-349`) -/

/-- `line.find(pat)` on character lists. -/
def findSubAux (pat : List Char) : List Char → Nat → Option Nat
  | [], i => if pat = [] then some i else none
  | c :: rest, i =>
    if pat.isPrefixOf (c :: rest) then some i else findSubAux pat rest (i + 1)

/-- Position of the first occurrence of `pat` in `s`. -/
def findSubstrPos (pat s : List Char) : Option Nat :=
  findSubAux pat s 0

/-- The header separator literal `"\\TIME_PERIOD"` (one backslash followed by
`TIME_PERIOD`). -/
def HEADER_SEPARATOR : String := "\\TIME_PERIOD"

/-- `StringUtil::Lower` (ASCII lower-casing). -/
def lowerCpp (s : String) : String :=
  String.mk (s.data.map Char.toLower)

/-- The dimension-name loop of the header parser
(`eurostat_data_functions.cpp:325-337`): walk the comma-split key columns,
lower-casing each, and stop at the first `"geo"`, whose index is returned
(−1 when no `geo` column exists). -/
def geoIndexOfTokens : List String → Nat → Int
  | [], _ => -1
  | t :: rest, token_index =>
    if lowerCpp t = "geo" then (token_index : Int)
    else geoIndexOfTokens rest (token_index + 1)

/-- Header parsing of `ES_Read::Init`: `none` models the thrown
`IOException` (separator missing, or `substr` past the end of the line);
otherwise the geo column index and the time-period list. -/
def parseHeader (line : String) : Option (Int × List String) :=
  match findSubstrPos HEADER_SEPARATOR.data line.data with
  | none => none
  | some pos =>
    if line.data.length < pos + HEADER_SEPARATOR.length + 1 then none
    else
      let key_part := String.mk (line.data.take pos)
      let geo_column_index := geoIndexOfTokens (cppGetlineSplit ',' key_part) 0
      let tp_part := String.mk (line.data.drop (pos + HEADER_SEPARATOR.length + 1))
      let time_periods := ((cppGetlineSplit '\t' tp_part).map trimCpp).filter (· ≠ "")
      some (geo_column_index, time_periods)

/-! ### URL fan-out and per-response handling (`eurostat_data_functions.cpp:214-301`) -/

/-- `ES_Read::GetDataUrls` (`eurostat_data_functions.cpp:214-246`): one URL
per distinct non-empty compiled clause, else the single unbounded URL.  The
`unordered_map` key set is modelled as a list dedup (its iteration order is
unspecified in C++). -/
def GetDataUrls (base_url : String) (complex_filters : List String) : List String :=
  let urls := ((complex_filters.filter (· ≠ "")).map
    (fun fc => base_url ++ fc ++ "format=TSV&compressed=true")).dedup
  if urls.isEmpty then [base_url ++ "?format=TSV&compressed=true"] else urls

/-- `bool check_keys = data_urls.size() > 1` (`eurostat_data_functions.cpp:268`). -/
def checkKeysEnabled (base_url : String) (complex_filters : List String) : Bool :=
  (GetDataUrls base_url complex_filters).length > 1

/-- The transport response fields read by `ES_Read::Init`. -/
structure HttpResponse where
  status_code : Int
  body : String
  content_type : String
  error : String
deriving DecidableEq

/-- Outcome of the per-URL response checks of `ES_Read::Init`
(`eurostat_data_functions.cpp:285-301`): the XML error-document early return
(rows cleared, no exception), a thrown `IOException`, or proceeding to parse
the TSV body. -/
inductive FetchOutcome where
  | zeroRows
  | fatal (msg : String)
  | proceed
deriving DecidableEq

/-- The printf expansion of the fetch-failure format string
(`eurostat_data_functions.cpp:295-297`). -/
def fetchErrorMessage (provider_id dataflow_id : String) (status_code : Int)
    (error : String) : String :=
  "EUROSTAT: Failed to fetch a dataset from provider='" ++ provider_id ++
    "', dataflow='" ++ dataflow_id ++ "': (" ++ toString status_code ++ ") " ++ error

/-- The response checks of `ES_Read::Init` (`eurostat_data_functions.cpp:285-301`),
in source order: XML content type first, then non-200 status, then a
non-empty transport error string. -/
def handleResponse (response : HttpResponse) (provider_id dataflow_id : String) :
    FetchOutcome :=
  if response.content_type = "application/xml" then .zeroRows
  else if response.status_code ≠ 200 then
    .fatal (fetchErrorMessage provider_id dataflow_id response.status_code response.error)
  else if response.error ≠ "" then .fatal ("EUROSTAT: " ++ response.error)
  else .proceed

/-! ## Verification predicates and concrete fixtures -/

/-- Invariant of every reachable `EurostatFilterSet`: each branch's mask has
one entry per dimension of the schema. -/
def MaskInv (s : EurostatFilterSet) : Prop :=
  ∀ f ∈ s.filters, f.dim_mask.length = s.data_structure.length

/-- A column-ref binding index whose mapped dimension index is either the
−1 sentinel or in bounds for the schema. -/
def refOk (ds : List Dimension) (column_ids : List Nat) (b : Nat) : Prop :=
  GetDimensionIndexFromColumnRef (.boundColumnRef b) ds column_ids = -1 ∨
    (0 ≤ GetDimensionIndexFromColumnRef (.boundColumnRef b) ds column_ids ∧
      (GetDimensionIndexFromColumnRef (.boundColumnRef b) ds column_ids).toNat < ds.length)

/-- A concrete example schema, shaped like the `DEMO_R_D2JAN` documentation
example: a key dimension `geo`, the virtual `geo_level` dimension
(`position = -1`), and the `time_period` dimension.  The engine-visible
column list is `geo, geo_level, time_period, observation_value`, so column
index 3 is the observation-value column, one past the schema. -/
def dsExample : List Dimension :=
  [⟨1, "geo", "Geopolitical entity (reporting)"⟩,
   ⟨-1, "geo_level", "NUTS classification level"⟩,
   ⟨2, "time_period", "Time"⟩]

/-- The identity projection over the four engine-visible columns of
`dsExample`. -/
def cidsExample : List Nat := [0, 1, 2, 3]

/-- The dimension-selector text contributed by the mask entries after an
already non-empty accumulated clause: each non-flag entry appends itself
plus a `"."` separator (analysis helper for `maskClause`). -/
def maskTail : List String → String
  | [] => ""
  | m :: rest =>
    if m = VIRTUAL_DIMENSION_FLAG then maskTail rest else m ++ "." ++ maskTail rest

/-- The `"+v"` suffixes accumulated onto a mask entry by successive equality
encodes (`mask_v + "+" + value`, `filter_encoder.cpp:179`). -/
def plusTail : List String → String
  | [] => ""
  | v :: rest => "+" ++ v ++ plusTail rest

/-- A value list joined by `"+"` in order: the selector set an IN filter
accumulates into a single mask entry. -/
def joinPlus : List String → String
  | [] => ""
  | v :: rest => v ++ plusTail rest

/-! ## General helper lemmas -/

theorem toInt32_small {n : Nat} (h : n < 2147483648) : toInt32 n = (n : Int) := by
  unfold toInt32
  have h2 : n % 4294967296 = n := Nat.mod_eq_of_lt (by omega)
  simp only [h2]
  split <;> omega

theorem list_len2 {α : Type} (l : List α) (h : l.length = 2) : ∃ a b, l = [a, b] := by
  rcases l with _ | ⟨a, _ | ⟨b, _ | ⟨c, r⟩⟩⟩ <;> simp_all

theorem list_len4 {α : Type} (l : List α) (h : l.length = 4) :
    ∃ a b c d, l = [a, b, c, d] := by
  rcases l with _ | ⟨a, _ | ⟨b, _ | ⟨c, _ | ⟨d, _ | ⟨e, r⟩⟩⟩⟩⟩ <;> simp_all

/-! ## Filter-set invariant lemmas -/

theorem mkEurostatFilter_len (ds : List Dimension) :
    (mkEurostatFilter ds).dim_mask.length = ds.length := by
  simp [mkEurostatFilter]

theorem maskInv_init (ds : List Dimension) : MaskInv (initFilterSet ds) := by
  intro f hf
  simp only [initFilterSet, List.mem_singleton] at hf
  subst hf
  simp [mkEurostatFilter, initFilterSet]

theorem maskInv_push {s : EurostatFilterSet} (h : MaskInv s) : MaskInv s.PushEmptyFilter := by
  intro f hf
  simp only [EurostatFilterSet.PushEmptyFilter, List.mem_append, List.mem_singleton] at hf
  rcases hf with hf | rfl
  · exact h f hf
  · simp [mkEurostatFilter, EurostatFilterSet.PushEmptyFilter]

theorem maskInv_mark {s : EurostatFilterSet} (h : MaskInv s) : MaskInv s.markUnsupported :=
  fun f hf => h f hf

theorem getCurrent_len {s : EurostatFilterSet} (h : MaskInv s) :
    s.GetCurrentFilter.dim_mask.length = s.data_structure.length := by
  unfold EurostatFilterSet.GetCurrentFilter
  rcases hl : s.filters.getLast? with - | f
  · rw [List.getLastD_eq_getLast?, hl]
    simp [mkEurostatFilter]
  · rw [List.getLastD_eq_getLast?, hl]
    obtain ⟨hne, hfeq⟩ := List.mem_getLast?_eq_getLast hl
    exact h f (hfeq ▸ List.getLast_mem hne)

theorem maskInv_setCurrent {s : EurostatFilterSet} {f : EurostatFilter} (h : MaskInv s)
    (hf : f.dim_mask.length = s.data_structure.length) : MaskInv (s.SetCurrentFilter f) := by
  intro g hg
  simp only [EurostatFilterSet.SetCurrentFilter, List.mem_append, List.mem_singleton] at hg
  rcases hg with hg | rfl
  · exact h g (List.dropLast_subset _ hg)
  · exact hf

/-- `EncodeConstantComparison` never reaches the out-of-range branch when
the dimension index is in bounds, and preserves the mask invariant and the
schema. -/
theorem encodeCC_ok {cf : ConstantFilter} {dim : Dimension} {di : Nat}
    {s : EurostatFilterSet} (h : MaskInv s) (hdi : di < s.data_structure.length) :
    ∃ b s2, EncodeConstantComparison cf dim di s = .ok (b, s2) ∧ MaskInv s2 ∧
      s2.data_structure = s.data_structure := by
  by_cases hnull : cf.constant.is_null
  · exact ⟨false, _, by rw [EncodeConstantComparison, if_pos hnull], maskInv_mark h, rfl⟩
  · by_cases htime : dim.name = TIME_PERIOD_DIMENSION_NAME
    · by_cases hge : cf.comparison_type = .COMPARE_GREATERTHANOREQUALTO
      · refine ⟨true, s.SetCurrentFilter
          { s.GetCurrentFilter with
              start_period := "startPeriod=" ++ cf.constant.to_string }, ?_, ?_, rfl⟩
        · rw [EncodeConstantComparison, if_neg hnull, if_pos htime, if_pos hge]
        · exact maskInv_setCurrent h (getCurrent_len h)
      · by_cases hle : cf.comparison_type = .COMPARE_LESSTHANOREQUALTO
        · refine ⟨true, s.SetCurrentFilter
            { s.GetCurrentFilter with
                end_period := "endPeriod=" ++ cf.constant.to_string }, ?_, ?_, rfl⟩
          · rw [EncodeConstantComparison, if_neg hnull, if_pos htime, if_neg hge, if_pos hle]
          · exact maskInv_setCurrent h (getCurrent_len h)
        · by_cases heq : cf.comparison_type = .COMPARE_EQUAL
          · refine ⟨true, s.SetCurrentFilter
              { s.GetCurrentFilter with
                  start_period := "startPeriod=" ++ cf.constant.to_string,
                  end_period := "endPeriod=" ++ cf.constant.to_string }, ?_, ?_, rfl⟩
            · rw [EncodeConstantComparison, if_neg hnull, if_pos htime, if_neg hge,
                if_neg hle, if_pos heq]
            · exact maskInv_setCurrent h (getCurrent_len h)
          · refine ⟨false, _, ?_, maskInv_mark h, rfl⟩
            rw [EncodeConstantComparison, if_neg hnull, if_pos htime, if_neg hge,
              if_neg hle, if_neg heq]
    · rcases hop : GetComparisonOperator cf.comparison_type with - | op
      · refine ⟨false, _, ?_, maskInv_mark h, rfl⟩
        rw [EncodeConstantComparison, if_neg hnull, if_neg htime, hop]
      · have hget : di < s.GetCurrentFilter.dim_mask.length := by
          rw [getCurrent_len h]
          exact hdi
        rcases hmv : s.GetCurrentFilter.dim_mask.get? di with - | mv
        · rw [List.get?_eq_none] at hmv
          omega
        · refine ⟨true, s.SetCurrentFilter
            { s.GetCurrentFilter with
                dim_mask := s.GetCurrentFilter.dim_mask.set di
                  (if mv = "" then cf.constant.to_string
                   else mv ++ "+" ++ cf.constant.to_string) }, ?_, ?_, rfl⟩
          · rw [EncodeConstantComparison, if_neg hnull, if_neg htime, hop, hmv]
          · refine maskInv_setCurrent h ?_
            simpa using getCurrent_len h

/-- `encodeInValues` never reaches the out-of-range branch when the
dimension index is in bounds. -/
theorem encodeInValues_ok {dim : Dimension} {di : Nat} (vs : List EsValue)
    {s : EurostatFilterSet} (h : MaskInv s) (hdi : di < s.data_structure.length) :
    ∃ b s2, encodeInValues dim di vs s = .ok (b, s2) ∧ MaskInv s2 ∧
      s2.data_structure = s.data_structure := by
  induction vs generalizing s with
  | nil => exact ⟨true, s, rfl, h, rfl⟩
  | cons v rest ih =>
    obtain ⟨b, s2, heq, h2, hds2⟩ := @encodeCC_ok ⟨.COMPARE_EQUAL, v⟩ dim _ _ h hdi
    cases b with
    | false =>
      refine ⟨false, s2.markUnsupported, ?_, maskInv_mark h2, hds2⟩
      rw [encodeInValues, heq]
    | true =>
      obtain ⟨b3, s3, heq3, h3, hds3⟩ := ih h2 (hds2 ▸ hdi)
      refine ⟨b3, s3, ?_, h3, hds3.trans hds2⟩
      rw [encodeInValues, heq]
      exact heq3

/-- `EncodeInFilter` never reaches the out-of-range branch when the
dimension index is in bounds. -/
theorem encodeIn_ok {fl : InFilter} {dim : Dimension} {di : Nat}
    {s : EurostatFilterSet} (h : MaskInv s) (hdi : di < s.data_structure.length) :
    ∃ b s2, EncodeInFilter fl dim di s = .ok (b, s2) ∧ MaskInv s2 ∧
      s2.data_structure = s.data_structure := by
  by_cases hc : dim.name = TIME_PERIOD_DIMENSION_NAME ∧ fl.values.length > 1
  · exact ⟨false, _, by rw [EncodeInFilter, if_pos hc], maskInv_mark h, rfl⟩
  · obtain ⟨b, s2, heq, h2, hds⟩ := encodeInValues_ok fl.values h hdi
    exact ⟨b, s2, by rw [EncodeInFilter, if_neg hc, heq], h2, hds⟩

mutual

/-- `EncodeFilter` never reaches the out-of-range branch when the dimension
index is in bounds, and preserves the mask invariant and the schema. -/
theorem encodeFilter_ok (fl : TableFilter) (dim : Dimension) (di : Nat)
    (s : EurostatFilterSet) (h : MaskInv s) (hdi : di < s.data_structure.length) :
    ∃ b s2, EncodeFilter fl dim di s = .ok (b, s2) ∧ MaskInv s2 ∧
      s2.data_structure = s.data_structure := by
  cases fl with
  | constantComparison ty c =>
    obtain ⟨b, s2, heq, h2, hds⟩ := @encodeCC_ok ⟨ty, c⟩ dim _ _ h hdi
    exact ⟨b, s2, by rw [EncodeFilter]; exact heq, h2, hds⟩
  | inFilter vs =>
    obtain ⟨b, s2, heq, h2, hds⟩ := @encodeIn_ok ⟨vs⟩ dim _ _ h hdi
    exact ⟨b, s2, by rw [EncodeFilter]; exact heq, h2, hds⟩
  | conjunctionAnd ch =>
    by_cases hch : ch.isEmpty
    · exact ⟨false, _, by rw [EncodeFilter, if_pos hch], maskInv_mark h, rfl⟩
    · obtain ⟨b, s2, heq, h2, hds⟩ := encodeAndChildren_ok ch dim di s h hdi
      exact ⟨b, s2, by rw [EncodeFilter, if_neg hch]; exact heq, h2, hds⟩
  | conjunctionOr ch =>
    by_cases hch : ch.isEmpty
    · exact ⟨false, _, by rw [EncodeFilter, if_pos hch], maskInv_mark h, rfl⟩
    · obtain ⟨b, s2, heq, h2, hds⟩ := encodeOrChildren_ok ch dim di s h hdi
      exact ⟨b, s2, by rw [EncodeFilter, if_neg hch]; exact heq, h2, hds⟩
  | optionalFilter child =>
    cases child with
    | none => exact ⟨true, s, by rw [EncodeFilter], h, rfl⟩
    | some f =>
      obtain ⟨b, s2, heq, h2, hds⟩ := encodeFilter_ok f dim di s h hdi
      exact ⟨b, s2, by rw [EncodeFilter]; exact heq, h2, hds⟩
  | otherFilter => exact ⟨false, _, by rw [EncodeFilter], maskInv_mark h, rfl⟩

theorem encodeAndChildren_ok (children : List TableFilter) (dim : Dimension) (di : Nat)
    (s : EurostatFilterSet) (h : MaskInv s) (hdi : di < s.data_structure.length) :
    ∃ b s2, encodeAndChildren children dim di s = .ok (b, s2) ∧ MaskInv s2 ∧
      s2.data_structure = s.data_structure := by
  cases children with
  | nil => exact ⟨true, s, by rw [encodeAndChildren], h, rfl⟩
  | cons f rest =>
    obtain ⟨b, s2, heq, h2, hds⟩ := encodeFilter_ok f dim di s h hdi
    cases b with
    | false =>
      exact ⟨false, s2.markUnsupported, by rw [encodeAndChildren, heq], maskInv_mark h2, hds⟩
    | true =>
      obtain ⟨b3, s3, heq3, h3, hds3⟩ := encodeAndChildren_ok rest dim di s2 h2 (hds ▸ hdi)
      exact ⟨b3, s3, by rw [encodeAndChildren, heq]; exact heq3, h3, hds3.trans hds⟩

theorem encodeOrChildren_ok (children : List TableFilter) (dim : Dimension) (di : Nat)
    (s : EurostatFilterSet) (h : MaskInv s) (hdi : di < s.data_structure.length) :
    ∃ b s2, encodeOrChildren children dim di s = .ok (b, s2) ∧ MaskInv s2 ∧
      s2.data_structure = s.data_structure := by
  cases children with
  | nil => exact ⟨true, s, by rw [encodeOrChildren], h, rfl⟩
  | cons f rest =>
    obtain ⟨b, s2, heq, h2, hds⟩ := encodeFilter_ok f dim di s h hdi
    cases b with
    | false =>
      exact ⟨false, s2.markUnsupported, by rw [encodeOrChildren, heq], maskInv_mark h2, hds⟩
    | true =>
      obtain ⟨b3, s3, heq3, h3, hds3⟩ :=
        encodeOrChildren_ok rest dim di s2.PushEmptyFilter (maskInv_push h2) (hds ▸ hdi)
      exact ⟨b3, s3, by rw [encodeOrChildren, heq]; exact heq3, h3, hds3.trans hds⟩

end

/-- If some entry of the filter set maps to a dimension flagged virtual
(`position = -1`), the entry loop of `Encode` ends in the early
`supported = false` return, regardless of the other entries. -/
theorem encodeEntries_virtual_fails (ds : List Dimension) (cids : List Nat) :
    ∀ (entries : List (Nat × TableFilter)) (s : EurostatFilterSet), MaskInv s →
      s.data_structure = ds →
      (∃ p ∈ entries, ∃ tcol, resolveCol cids p.1 = some tcol ∧
        tcol < VIRTUAL_COL_START ∧
        ∃ hlt : tcol < ds.length, (ds.get ⟨tcol, hlt⟩).position = -1) →
      encodeEntries ds cids entries s = .ok none := by
  intro entries
  induction entries with
  | nil =>
    intro s _ _ hex
    obtain ⟨p, hp, -⟩ := hex
    exact absurd hp (List.not_mem_nil p)
  | cons hd rest ih =>
    intro s hinv hds hex
    obtain ⟨p0, f0⟩ := hd
    rcases hres : resolveCol cids p0 with - | tc
    · simp only [encodeEntries, hres]
    · simp only [encodeEntries, hres]
      by_cases hvc : VIRTUAL_COL_START ≤ tc
      · rw [if_pos hvc]
      · rw [if_neg hvc]
        by_cases hlt : tc < ds.length
        · rw [dif_pos hlt]
          by_cases hpos : (ds.get ⟨tc, hlt⟩).position = -1
          · simp only [if_pos hpos]
          · simp only [if_neg hpos]
            obtain ⟨b, s2, heq, hinv2, hds2⟩ :=
              encodeFilter_ok f0 (ds.get ⟨tc, hlt⟩) tc s hinv (by rw [hds]; exact hlt)
            rcases hex with ⟨p, hp, tcol, hres2, hvc2, hlt2, hpos2⟩
            rcases List.mem_cons.mp hp with rfl | hmem
            · exfalso
              rw [hres] at hres2
              injection hres2 with he
              subst he
              exact hpos hpos2
            · cases b with
              | false => rw [heq]
              | true =>
                rw [heq]
                exact ih s2 hinv2 (hds2.trans hds) ⟨p, hmem, tcol, hres2, hvc2, hlt2, hpos2⟩
        · rw [dif_neg hlt]

/-! ## C1, C2: virtual-dimension rejection and all-or-nothing compilation -/

/-- C1 (code bug): the claim holds for the `TableFilterSet` path — any entry
of the filter set that maps to a dimension with `position = -1` makes
`Encode` return `supported = false` with no filter clause (first conjunct) —
but it is violated by the complex-expression path: `EncodeExpression` never
checks `position`, so an equality on the virtual `geo_level` dimension
compiles to `supported = true` with the nonsense clause `"/.---+country?"`
in which the virtual-dimension flag `---` leaks into the emitted selector
(second conjunct, the divergence evaluated at the failing input). -/
theorem c1_virtual_dimension_rejection :
    (∀ (entries : List (Nat × TableFilter)) (ds : List Dimension) (cids : List Nat)
        (p : Nat × TableFilter) (tcol : Nat), p ∈ entries →
        resolveCol cids p.1 = some tcol → tcol < VIRTUAL_COL_START →
        ∀ hlt : tcol < ds.length, (ds.get ⟨tcol, hlt⟩).position = -1 →
        Encode entries ds cids = .ok { filters := [], supported := false }) ∧
    EncodeExpression
      [.boundComparison .COMPARE_EQUAL (.boundColumnRef 1)
        (.boundConstant ⟨false, "country"⟩)] dsExample cidsExample =
      .ok ({ filters := ["/.---+country?"], supported := true }, []) := by
  constructor
  · intro entries ds cids p tcol hp hres hvc hlt hpos
    have hne : entries.isEmpty = false := by
      cases entries with
      | nil => exact absurd hp (List.not_mem_nil p)
      | cons a l => rfl
    rw [Encode, if_neg (by simp [hne]),
      encodeEntries_virtual_fails ds cids entries (initFilterSet ds) (maskInv_init ds) rfl
        ⟨p, hp, tcol, hres, hvc, hlt, hpos⟩]
  · simp [EncodeExpression, encodeExprList, EncodeExpressionNode,
      GetDimensionIndexFromColumnRef, EncodeConstantComparison, dsExample, cidsExample,
      initFilterSet, mkEurostatFilter, initMaskEntry, emitFilters,
      EurostatFilter.IsEmpty, EurostatFilter.GetFilterString, maskClause, popBack,
      EurostatFilterSet.GetCurrentFilter, EurostatFilterSet.SetCurrentFilter,
      toInt32, GetComparisonOperator, TIME_PERIOD_DIMENSION_NAME, VIRTUAL_DIMENSION_FLAG]

/-- Witness for C1 at a concrete input: a constant filter on the virtual
`geo_level` column of the example schema is rejected by `Encode`. -/
theorem c1_virtual_dimension_rejection_witness :
    Encode [(1, .constantComparison .COMPARE_EQUAL ⟨false, "country"⟩)] dsExample
      cidsExample = .ok { filters := [], supported := false } :=
  c1_virtual_dimension_rejection.1
    [(1, .constantComparison .COMPARE_EQUAL ⟨false, "country"⟩)] dsExample cidsExample
    (1, .constantComparison .COMPARE_EQUAL ⟨false, "country"⟩) 1
    (List.mem_singleton.mpr rfl) (by decide) (by decide) (by decide) (by decide)

/-- C2: compilation by `EncodeExpression` is all-or-nothing and atomic —
whenever the result is `supported = false` the filter list is empty and the
input expression vector is returned unchanged, and whenever it is
`supported = true` the expression vector is cleared (first conjunct); in
particular `geo = 'AL' AND <unsupported shape>` compiles to
`supported = false` with zero clauses and the expressions retained, even
though `geo = 'AL'` alone would have been encodable (second conjunct). -/
theorem c2_expression_all_or_nothing :
    (∀ (expressions : List Expr) (ds : List Dimension) (cids : List Nat)
        (res : FilterEncoderResult) (rest : List Expr),
        EncodeExpression expressions ds cids = .ok (res, rest) →
        (res.supported = false → res.filters = [] ∧ rest = expressions) ∧
        (res.supported = true → rest = [])) ∧
    EncodeExpression
      [.boundConjunction .CONJUNCTION_AND
        [.boundComparison .COMPARE_EQUAL (.boundColumnRef 0) (.boundConstant ⟨false, "AL"⟩),
         .otherExpr]] dsExample cidsExample =
      .ok ({ filters := [], supported := false },
        [.boundConjunction .CONJUNCTION_AND
          [.boundComparison .COMPARE_EQUAL (.boundColumnRef 0)
            (.boundConstant ⟨false, "AL"⟩),
           .otherExpr]]) := by
  constructor
  · intro exprs ds cids res rest h
    by_cases hemp : exprs.isEmpty = true
    · rw [EncodeExpression, if_pos hemp] at h
      simp only [Except.ok.injEq, Prod.mk.injEq] at h
      obtain ⟨hres, hrest⟩ := h
      subst hres
      subst hrest
      exact ⟨fun _ => ⟨rfl, rfl⟩, fun hc => by simp at hc⟩
    · rw [EncodeExpression, if_neg hemp] at h
      rcases hgo : encodeExprList ds cids exprs (initFilterSet ds) with e | ⟨b, s⟩ <;>
        rw [hgo] at h
      · simp at h
      · cases b with
        | false =>
          have h2 : (Except.ok ({ filters := [], supported := false }, exprs) :
              Except EncErr (FilterEncoderResult × List Expr)) = .ok (res, rest) := h
          simp only [Except.ok.injEq, Prod.mk.injEq] at h2
          obtain ⟨hres, hrest⟩ := h2
          subst hres
          subst hrest
          exact ⟨fun _ => ⟨rfl, rfl⟩, fun hc => by simp at hc⟩
        | true =>
          have h2 : (Except.ok
              (({ filters := emitFilters s,
                  supported := decide ((emitFilters s).length > 0) } : FilterEncoderResult),
                if decide ((emitFilters s).length > 0) then ([] : List Expr) else exprs) :
              Except EncErr (FilterEncoderResult × List Expr)) = .ok (res, rest) := h
          rcases hd : decide ((emitFilters s).length > 0) with - | -
          · rw [hd] at h2
            simp only [Except.ok.injEq, Prod.mk.injEq, if_false] at h2
            obtain ⟨hres, hrest⟩ := h2
            subst hres
            subst hrest
            refine ⟨fun _ => ⟨?_, rfl⟩, fun hc => by simp_all⟩
            have : (emitFilters s).length = 0 := by
              simpa using of_decide_eq_false hd
            exact List.eq_nil_of_length_eq_zero this
          · rw [hd] at h2
            simp only [Except.ok.injEq, Prod.mk.injEq, if_true] at h2
            obtain ⟨hres, hrest⟩ := h2
            subst hres
            subst hrest
            exact ⟨fun hc => by simp_all, fun _ => rfl⟩
  · simp [EncodeExpression, encodeExprList, EncodeExpressionNode, encodeNodesAnd,
      GetDimensionIndexFromColumnRef, EncodeConstantComparison, dsExample, cidsExample,
      initFilterSet, mkEurostatFilter, initMaskEntry, emitFilters,
      EurostatFilter.IsEmpty, EurostatFilter.GetFilterString, maskClause, popBack,
      EurostatFilterSet.GetCurrentFilter, EurostatFilterSet.SetCurrentFilter,
      EurostatFilterSet.markUnsupported, toInt32, GetComparisonOperator,
      TIME_PERIOD_DIMENSION_NAME, VIRTUAL_DIMENSION_FLAG]

/-- Witness for C2 at a concrete input: a single unsupported expression
yields `supported = false`, an empty filter list and the unchanged input. -/
theorem c2_expression_all_or_nothing_witness :
    (({ filters := [], supported := false } : FilterEncoderResult).supported = false →
      ({ filters := [], supported := false } : FilterEncoderResult).filters = [] ∧
        [Expr.otherExpr] = [Expr.otherExpr]) ∧
    (({ filters := [], supported := false } : FilterEncoderResult).supported = true →
      [Expr.otherExpr] = ([] : List Expr)) :=
  c2_expression_all_or_nothing.1 [Expr.otherExpr] dsExample cidsExample
    { filters := [], supported := false } [Expr.otherExpr]
    (by simp [EncodeExpression, encodeExprList, EncodeExpressionNode,
      EurostatFilterSet.markUnsupported, initFilterSet, mkEurostatFilter, dsExample])

/-! ## C10: bounds discipline of the expression path -/

theorem collectConstants_map (vs : List EsValue) :
    collectConstants (vs.map .boundConstant) = some vs := by
  induction vs with
  | nil => rfl
  | cons v rest ih => simp [collectConstants, ih]

/-- C10: in the complex-expression path, `GetDimensionIndexFromColumnRef`
returns `column_ids[binding_index]` unchecked against the dimension count
(its `data_structure` parameter is unused), and the call sites compare the
result only with −1, so the `data_structure[dim_idx]` accesses are in bounds
exactly under `refOk`: the first three conjuncts show a constant comparison,
an IN over constants and a BETWEEN over a column never reach the
out-of-range branch when the mapped index is −1 or strictly below
`data_structure.size()`; the last three show that whenever the mapped index
is not −1 and not strictly below the schema length (for example the
observation-value column, whose index equals `data_structure.size()`), each
of the three shapes reaches the out-of-range access. -/
theorem c10_expression_path_bounds :
    (∀ (ds : List Dimension) (cids : List Nat) (b : Nat) (ty : ExpressionType)
        (v : EsValue) (s : EurostatFilterSet), MaskInv s → s.data_structure = ds →
        refOk ds cids b →
        EncodeExpressionNode (.boundComparison ty (.boundColumnRef b) (.boundConstant v))
          ds cids s ≠ .error .outOfRange) ∧
    (∀ (ds : List Dimension) (cids : List Nat) (b : Nat) (vs : List EsValue)
        (s : EurostatFilterSet), MaskInv s → s.data_structure = ds → refOk ds cids b →
        EncodeExpressionNode (.boundOperator .COMPARE_IN
          (.boundColumnRef b :: vs.map .boundConstant)) ds cids s ≠ .error .outOfRange) ∧
    (∀ (ds : List Dimension) (cids : List Nat) (b : Nat) (lo hi : EsValue)
        (s : EurostatFilterSet), refOk ds cids b →
        EncodeExpressionNode (.boundBetween (.boundColumnRef b) (.boundConstant lo)
          (.boundConstant hi)) ds cids s ≠ .error .outOfRange) ∧
    (∀ (ds : List Dimension) (cids : List Nat) (b : Nat) (ty : ExpressionType)
        (v : EsValue) (s : EurostatFilterSet),
        GetDimensionIndexFromColumnRef (.boundColumnRef b) ds cids ≠ -1 →
        ¬(0 ≤ GetDimensionIndexFromColumnRef (.boundColumnRef b) ds cids ∧
          (GetDimensionIndexFromColumnRef (.boundColumnRef b) ds cids).toNat < ds.length) →
        EncodeExpressionNode (.boundComparison ty (.boundColumnRef b) (.boundConstant v))
          ds cids s = .error .outOfRange) ∧
    (∀ (ds : List Dimension) (cids : List Nat) (b : Nat) (vs : List EsValue)
        (s : EurostatFilterSet), vs ≠ [] →
        GetDimensionIndexFromColumnRef (.boundColumnRef b) ds cids ≠ -1 →
        ¬(0 ≤ GetDimensionIndexFromColumnRef (.boundColumnRef b) ds cids ∧
          (GetDimensionIndexFromColumnRef (.boundColumnRef b) ds cids).toNat < ds.length) →
        EncodeExpressionNode (.boundOperator .COMPARE_IN
          (.boundColumnRef b :: vs.map .boundConstant)) ds cids s = .error .outOfRange) ∧
    (∀ (ds : List Dimension) (cids : List Nat) (b : Nat) (lo hi : EsValue)
        (s : EurostatFilterSet),
        GetDimensionIndexFromColumnRef (.boundColumnRef b) ds cids ≠ -1 →
        ¬(0 ≤ GetDimensionIndexFromColumnRef (.boundColumnRef b) ds cids ∧
          (GetDimensionIndexFromColumnRef (.boundColumnRef b) ds cids).toNat < ds.length) →
        EncodeExpressionNode (.boundBetween (.boundColumnRef b) (.boundConstant lo)
          (.boundConstant hi)) ds cids s = .error .outOfRange) := by
  refine ⟨?_, ?_, ?_, ?_, ?_, ?_⟩
  · intro ds cids b ty v s h hds href
    by_cases hd : GetDimensionIndexFromColumnRef (.boundColumnRef b) ds cids = -1
    · rw [EncodeExpressionNode, if_pos hd]
      simp
    · have hlt : 0 ≤ GetDimensionIndexFromColumnRef (.boundColumnRef b) ds cids ∧
          (GetDimensionIndexFromColumnRef (.boundColumnRef b) ds cids).toNat < ds.length :=
        href.resolve_left hd
      obtain ⟨b2, s2, heq, h2, hds2⟩ := @encodeCC_ok ⟨ty, v⟩ (ds.get ⟨_, hlt.2⟩)
        ((GetDimensionIndexFromColumnRef (.boundColumnRef b) ds cids).toNat) _ h
        (by rw [hds]; exact hlt.2)
      rw [EncodeExpressionNode, if_neg hd, dif_pos hlt, heq]
      simp
  · intro ds cids b vs s h hds href
    by_cases hlen : (Expr.boundColumnRef b :: vs.map .boundConstant).length < 2
    · rw [EncodeExpressionNode, if_neg (by simp), if_pos hlen]
      simp
    · by_cases hd : GetDimensionIndexFromColumnRef (.boundColumnRef b) ds cids = -1
      · rw [EncodeExpressionNode, if_neg (by simp), if_neg hlen, if_pos hd]
        simp
      · have hlt : 0 ≤ GetDimensionIndexFromColumnRef (.boundColumnRef b) ds cids ∧
            (GetDimensionIndexFromColumnRef (.boundColumnRef b) ds cids).toNat <
              ds.length := href.resolve_left hd
        obtain ⟨b2, s2, heq, h2, hds2⟩ := @encodeIn_ok ⟨vs⟩ (ds.get ⟨_, hlt.2⟩)
          ((GetDimensionIndexFromColumnRef (.boundColumnRef b) ds cids).toNat) _ h
          (by rw [hds]; exact hlt.2)
        rw [EncodeExpressionNode, if_neg (by simp), if_neg hlen, if_neg hd,
          collectConstants_map]
        simp only []
        rw [dif_pos hlt, heq]
        simp
  · intro ds cids b lo hi s href
    by_cases hd : GetDimensionIndexFromColumnRef (.boundColumnRef b) ds cids = -1
    · rw [EncodeExpressionNode, if_pos hd]
      simp
    · have hlt : 0 ≤ GetDimensionIndexFromColumnRef (.boundColumnRef b) ds cids ∧
          (GetDimensionIndexFromColumnRef (.boundColumnRef b) ds cids).toNat < ds.length :=
        href.resolve_left hd
      rw [EncodeExpressionNode, if_neg hd, dif_pos hlt]
      by_cases ht : (ds.get ⟨_, hlt.2⟩).name = TIME_PERIOD_DIMENSION_NAME
      · rw [if_pos ht]
        simp
      · rw [if_neg ht]
        simp
  · intro ds cids b ty v s hd hlt
    rw [EncodeExpressionNode, if_neg hd, dif_neg hlt]
  · intro ds cids b vs s hvs hd hlt
    have hlen : ¬(Expr.boundColumnRef b :: vs.map .boundConstant).length < 2 := by
      cases vs with
      | nil => exact absurd rfl hvs
      | cons a l => simp
    rw [EncodeExpressionNode, if_neg (by simp), if_neg hlen, if_neg hd,
      collectConstants_map]
    simp only []
    rw [dif_neg hlt]
  · intro ds cids b lo hi s hd hlt
    rw [EncodeExpressionNode, if_neg hd, dif_neg hlt]

/-- Witness for C10: on the example schema, a comparison on the `geo` column
(mapped index 0) is safe, while a comparison, IN and BETWEEN on the
observation-value column (mapped index 3 = `data_structure.size()`, checked
only against −1) each reach the out-of-range access. -/
theorem c10_expression_path_bounds_witness :
    EncodeExpressionNode (.boundComparison .COMPARE_EQUAL (.boundColumnRef 0)
        (.boundConstant ⟨false, "AL"⟩)) dsExample cidsExample
        (initFilterSet dsExample) ≠ .error .outOfRange ∧
    EncodeExpressionNode (.boundComparison .COMPARE_EQUAL (.boundColumnRef 3)
        (.boundConstant ⟨false, "5"⟩)) dsExample cidsExample
        (initFilterSet dsExample) = .error .outOfRange ∧
    EncodeExpressionNode (.boundOperator .COMPARE_IN
        (.boundColumnRef 3 :: [(⟨false, "5"⟩ : EsValue)].map .boundConstant)) dsExample
        cidsExample (initFilterSet dsExample) = .error .outOfRange ∧
    EncodeExpressionNode (.boundBetween (.boundColumnRef 3)
        (.boundConstant ⟨false, "2010"⟩) (.boundConstant ⟨false, "2020"⟩)) dsExample
        cidsExample (initFilterSet dsExample) = .error .outOfRange :=
  ⟨c10_expression_path_bounds.1 dsExample cidsExample 0 .COMPARE_EQUAL ⟨false, "AL"⟩
      (initFilterSet dsExample) (maskInv_init dsExample) rfl
      (Or.inr ⟨by decide, by decide⟩),
   c10_expression_path_bounds.2.2.2.1 dsExample cidsExample 3 .COMPARE_EQUAL
      ⟨false, "5"⟩ (initFilterSet dsExample) (by decide) (by decide),
   c10_expression_path_bounds.2.2.2.2.1 dsExample cidsExample 3 [⟨false, "5"⟩]
      (initFilterSet dsExample) (by decide) (by decide) (by decide),
   c10_expression_path_bounds.2.2.2.2.2 dsExample cidsExample 3 ⟨false, "2010"⟩
      ⟨false, "2020"⟩ (initFilterSet dsExample) (by decide) (by decide)⟩

/-! ## C9: bounds discipline of ParseDatarow -/

/-- The observation loop succeeds whenever the line has a field for every
remaining time period. -/
theorem obsLoop_some {V : Type} (tryCast : String → Option V) (tokens : List String)
    (sk : List Bool) (ck : Bool) (di : Nat) :
    ∀ (tps : List String) (i : Nat) (rows : List (DataRow V)),
      i + tps.length + 1 ≤ tokens.length →
      ∃ rows2, obsLoop tryCast tokens sk ck di tps i rows = some rows2 := by
  intro tps
  induction tps with
  | nil =>
    intro i rows _
    exact ⟨rows, by rw [obsLoop]⟩
  | cons tp rest ih =>
    intro i rows hlen
    simp only [List.length_cons] at hlen
    rw [obsLoop]
    by_cases hskip : (ck && sk.getD i false) = true
    · rw [if_pos hskip]
      exact ih (i + 1) rows (by omega)
    · rw [if_neg hskip]
      have hi : i + 1 < tokens.length := by omega
      rcases htok : tokens.get? (i + 1) with - | tok
      · rw [List.get?_eq_none] at htok
        omega
      · simp only []
        by_cases hv : (trimCpp tok ≠ "" ∧ trimCpp tok ≠ ":")
        · rw [if_pos hv]
          rcases hc : tryCast (trimCpp tok) with - | x
          · exact ih (i + 1) rows (by omega)
          · exact ih (i + 1) (rows ++ [⟨di, tp, x⟩]) (by omega)
        · rw [if_neg hv]
          exact ih (i + 1) rows (by omega)

/-- With the duplicate-skip disabled, the observation loop reaches the
out-of-range read `tokens[i + 1]` on every line with too few fields. -/
theorem obsLoop_oob {V : Type} (tryCast : String → Option V) (tokens : List String)
    (sk : List Bool) (di : Nat) :
    ∀ (tps : List String) (i : Nat) (rows : List (DataRow V)),
      tokens.length < i + tps.length + 1 → i + 1 ≤ tokens.length →
      obsLoop tryCast tokens sk false di tps i rows = none := by
  intro tps
  induction tps with
  | nil =>
    intro i rows hlt hge
    simp only [List.length_nil] at hlt
    omega
  | cons tp rest ih =>
    intro i rows hlt hge
    simp only [List.length_cons] at hlt
    rw [obsLoop]
    rw [if_neg (by simp)]
    by_cases hi : i + 1 < tokens.length
    · rcases htok : tokens.get? (i + 1) with - | tok
      · exfalso
        rw [List.get?_eq_none] at htok
        omega
      · simp only []
        by_cases hv : (trimCpp tok ≠ "" ∧ trimCpp tok ≠ ":")
        · rw [if_pos hv]
          rcases hc : tryCast (trimCpp tok) with - | x
          · exact ih (i + 1) rows (by omega) (by omega)
          · exact ih (i + 1) (rows ++ [⟨di, tp, x⟩]) (by omega) (by omega)
        · rw [if_neg hv]
          exact ih (i + 1) rows (by omega) (by omega)
    · rw [show tokens.get? (i + 1) = none by rw [List.get?_eq_none]; omega]

/-- The tail of `ParseDatarow` succeeds under the field-count and geo-index
preconditions. -/
theorem parseRowRest_some {V : Type} (tryCast : String → Option V) (st : ScanState V)
    (tps : List String) (geoIdx : Int) (ck : Bool) (t0 : String) (tl : List String)
    (sk : List Bool) (keys2 : List String)
    (hlen : tps.length + 1 ≤ (t0 :: tl : List String).length)
    (hgeo : geoIdx = -1 ∨ (0 ≤ geoIdx ∧ geoIdx.toNat < (cppGetlineSplit ',' t0).length)) :
    ∃ r, parseRowRest tryCast st tps geoIdx ck (t0 :: tl) t0 sk keys2 = some r := by
  rw [parseRowRest]
  rcases hgeo with rfl | ⟨hge0, hglt⟩
  · obtain ⟨rows2, hrows⟩ := obsLoop_some tryCast (t0 :: tl) sk ck
      st.dimensions.length tps 0 st.rows (by simpa using hlen)
    simp [hrows]
  · have hne : ¬(geoIdx = -1) := by omega
    have hgv := List.getElem?_eq_getElem hglt
    obtain ⟨rows2, hrows⟩ := obsLoop_some tryCast (t0 :: tl) sk ck
      st.dimensions.length tps 0 st.rows (by simpa using hlen)
    simp [if_neg hne, if_pos hge0, hgv, hrows]

/-- C9: `ParseDatarow` reads `tokens[i + 1]` for every header time-period
index `i` and the key tuple at `geo_column_index` without bounds checks;
its indexing stays in bounds under the precondition that the data line has
at least `time_periods.length + 1` tab-separated fields and, when a geo
dimension is present, more than `geo_column_index` comma-separated key
values (first conjunct, for either dedup mode); and for any line violating
either part of the precondition the out-of-range branch is reached (second
and third conjuncts, with the duplicate-skip disabled). -/
theorem c9_parse_datarow_bounds :
    (∀ (V : Type) (tryCast : String → Option V) (st : ScanState V) (tps : List String)
        (geoIdx : Int) (line : String) (ck : Bool),
        tps.length + 1 ≤ (cppGetlineSplit '\t' line).length →
        (geoIdx = -1 ∨ (0 ≤ geoIdx ∧ geoIdx.toNat <
          (cppGetlineSplit ',' ((cppGetlineSplit '\t' line).headD "")).length)) →
        ∃ r, ParseDatarow tryCast st tps geoIdx line ck = some r) ∧
    (∀ (V : Type) (tryCast : String → Option V) (st : ScanState V) (tps : List String)
        (line : String),
        cppGetlineSplit '\t' line ≠ [] →
        (cppGetlineSplit '\t' line).length < tps.length + 1 →
        ParseDatarow tryCast st tps (-1) line false = none) ∧
    (∀ (V : Type) (tryCast : String → Option V) (st : ScanState V) (tps : List String)
        (geoIdx : Int) (line : String),
        cppGetlineSplit '\t' line ≠ [] → 0 ≤ geoIdx →
        (cppGetlineSplit ',' ((cppGetlineSplit '\t' line).headD "")).length ≤ geoIdx.toNat →
        ParseDatarow tryCast st tps geoIdx line false = none) := by
  refine ⟨?_, ?_, ?_⟩
  · intro V tryCast st tps geoIdx line ck hlen hgeo
    rcases htok : cppGetlineSplit '\t' line with - | ⟨t0, tl⟩
    · simp only [ParseDatarow, htok]
      exact ⟨_, rfl⟩
    · rw [htok] at hlen hgeo
      simp only [List.headD_cons] at hgeo
      simp only [ParseDatarow, htok]
      cases ck with
      | false =>
        simp only [Bool.false_eq_true, if_false]
        exact parseRowRest_some tryCast st tps geoIdx false t0 tl [] st.row_keys hlen hgeo
      | true =>
        simp only [if_true]
        by_cases hdup : (scanKeys t0 st.row_keys tps).2.2 = true
        · simp only [hdup, if_true]
          exact ⟨_, rfl⟩
        · simp only [hdup, if_false]
          exact parseRowRest_some tryCast st tps geoIdx true t0 tl
            (scanKeys t0 st.row_keys tps).1 (scanKeys t0 st.row_keys tps).2.1 hlen hgeo
  · intro V tryCast st tps line hne hshort
    rcases htok : cppGetlineSplit '\t' line with - | ⟨t0, tl⟩
    · rw [htok] at hne
      exact absurd rfl hne
    · rw [htok] at hshort
      simp only [ParseDatarow, htok, Bool.false_eq_true, if_false]
      rw [parseRowRest]
      have hoob := obsLoop_oob tryCast (t0 :: tl) [] st.dimensions.length tps 0 st.rows
        (by simpa using hshort) (by simp)
      simp [hoob]
  · intro V tryCast st tps geoIdx line hne hge0 hglen
    rcases htok : cppGetlineSplit '\t' line with - | ⟨t0, tl⟩
    · rw [htok] at hne
      exact absurd rfl hne
    · rw [htok] at hglen
      simp only [List.headD_cons] at hglen
      simp only [ParseDatarow, htok, Bool.false_eq_true, if_false]
      rw [parseRowRest]
      have hnone : (cppGetlineSplit ',' t0)[geoIdx.toNat]? = none :=
        List.getElem?_eq_none hglen
      have hne1 : ¬(geoIdx = -1) := by omega
      simp [if_neg hne1, if_pos hge0, hnone]

/-- Witness for C9 at concrete inputs: the two-field line `"x\t5"` parses
under one time period; the one-field line `"x"` and a geo index past the key
tuple each reach the out-of-range branch. -/
theorem c9_parse_datarow_bounds_witness :
    (∃ r, @ParseDatarow String some ⟨[], [], []⟩ ["2020"] (-1) "x\t5" false =
      some r) ∧
    @ParseDatarow String some ⟨[], [], []⟩ ["2020"] (-1) "x" false = none ∧
    @ParseDatarow String some ⟨[], [], []⟩ [] 5 "A" false = none :=
  ⟨c9_parse_datarow_bounds.1 String some ⟨[], [], []⟩ ["2020"] (-1) "x\t5" false
      (by decide) (Or.inl rfl),
   c9_parse_datarow_bounds.2.1 String some ⟨[], [], []⟩ ["2020"] "x" (by decide)
      (by decide),
   c9_parse_datarow_bounds.2.2 String some ⟨[], [], []⟩ [] 5 "A" (by decide) (by decide)
      (by decide)⟩

/-! ## C6: placement of the synthetic geo-level value -/

/-- C6 counterexample: with the wire header `geo,unit\TIME_PERIOD\t2020`
(geo is the **first** key column, index 0) and data line `AL,NR\t5`, the
produced Dimension Values row is `["AL", "NR", "country"]`: the geo
classification is appended at the end, so the slot immediately following the
geo value holds `"NR"`, not the classification — refuting the claim that the
classification occupies the slot immediately after the geo value. -/
theorem c6_counterexample :
    parseHeader "geo,unit\\TIME_PERIOD\t2020" = some (0, ["2020"]) ∧
    @ParseDatarow String some ⟨[], [], []⟩ ["2020"] 0 "AL,NR\t5" false =
      some (true, ⟨[["AL", "NR", "country"]], [⟨0, "2020", "5"⟩], []⟩) ∧
    ¬(["AL", "NR", "country"].getD (0 + 1) "" = GetGeoLevelFromGeoCode "AL") := by
  decide

/-- The header loop yields −1 when no key column case-folds to `geo`. -/
theorem geoIndex_none (toks : List String) (i : Nat)
    (h : ∀ t ∈ toks, lowerCpp t ≠ "geo") : geoIndexOfTokens toks i = -1 := by
  induction toks generalizing i with
  | nil => rfl
  | cons t rest ih =>
    rw [geoIndexOfTokens, if_neg (h t (List.mem_cons_self t rest))]
    exact ih (i + 1) fun u hu => h u (List.mem_cons_of_mem t hu)

/-- The header loop yields the index of the first key column that
case-folds to `geo`. -/
theorem geoIndex_first (pre : List String) (t : String) (post : List String) (i : Nat)
    (hpre : ∀ u ∈ pre, lowerCpp u ≠ "geo") (ht : lowerCpp t = "geo") :
    geoIndexOfTokens (pre ++ t :: post) i = ((i + pre.length : Nat) : Int) := by
  induction pre generalizing i with
  | nil =>
    simp only [List.nil_append]
    rw [geoIndexOfTokens, if_pos ht]
    simp
  | cons u rest ih =>
    simp only [List.cons_append]
    rw [geoIndexOfTokens, if_neg (hpre u (List.mem_cons_self u rest))]
    rw [ih (i + 1) (fun w hw => hpre w (List.mem_cons_of_mem u hw))]
    simp only [List.length_cons]
    omega

/-- Helper for the amended C6: on any successfully parsed data line with a
geo column index `g`, the classification of key value `g` is appended as the
**last** element of the produced Dimension Values row. -/
theorem c6_geo_append (V : Type) (tryCast : String → Option V) (st : ScanState V)
    (tps : List String) (g : Nat) (line : String) (b : Bool) (st2 : ScanState V)
    (t0 : String) (tl : List String)
    (h : ParseDatarow tryCast st tps (g : Int) line false = some (b, st2))
    (htok : cppGetlineSplit '\t' line = t0 :: tl) :
    g < (cppGetlineSplit ',' t0).length ∧
    st2.dimensions = st.dimensions ++
      [cppGetlineSplit ',' t0 ++
        [GetGeoLevelFromGeoCode ((cppGetlineSplit ',' t0).getD g "")]] := by
  simp only [ParseDatarow, htok, Bool.false_eq_true, if_false] at h
  rw [parseRowRest] at h
  have hne1 : ¬((g : Int) = -1) := by omega
  have hge0 : (0 : Int) ≤ (g : Int) := by omega
  simp only [if_neg hne1, if_pos hge0, Int.toNat_natCast] at h
  rcases hkv : (cppGetlineSplit ',' t0).get? g with - | gv
  · rw [hkv] at h
    simp at h
  · rw [hkv] at h
    have hg : g < (cppGetlineSplit ',' t0).length := by
      by_contra hc
      rw [List.get?_eq_none.mpr (by omega)] at hkv
      simp at hkv
    refine ⟨hg, ?_⟩
    have hgv : (cppGetlineSplit ',' t0).getD g "" = gv := by
      rw [List.getD_eq_getElem?_getD, ← List.get?_eq_getElem?, hkv]
      rfl
    rw [hgv]
    have h2 : (match obsLoop tryCast (t0 :: tl) [] false
        ((st.dimensions ++
          [cppGetlineSplit ',' t0 ++ [GetGeoLevelFromGeoCode gv]]).length - 1)
        tps 0 st.rows with
      | none => none
      | some rows2 => some (true,
          (⟨st.dimensions ++ [cppGetlineSplit ',' t0 ++ [GetGeoLevelFromGeoCode gv]],
            rows2, st.row_keys⟩ : ScanState V))) = some (b, st2) := h
    rcases hob : obsLoop tryCast (t0 :: tl) [] false
        ((st.dimensions ++ [cppGetlineSplit ',' t0 ++ [GetGeoLevelFromGeoCode gv]]).length
          - 1) tps 0 st.rows with - | rows2
    · rw [hob] at h2
      simp at h2
    · rw [hob] at h2
      simp only [Option.some.injEq, Prod.mk.injEq] at h2
      rw [← h2.2]

/-- C6 (amended): the header parser records the index of the first
(case-folded) `geo` key column (first two conjuncts; −1 when absent), and
for every successfully parsed data line the geo code's classification is
appended as the **last** value of the produced Dimension Values row — which
coincides with the slot immediately following the geo value exactly when
geo is the last key column (third conjunct). -/
theorem c6_geo_level_value_amended :
    (∀ (toks : List String) (i : Nat), (∀ t ∈ toks, lowerCpp t ≠ "geo") →
        geoIndexOfTokens toks i = -1) ∧
    (∀ (pre : List String) (t : String) (post : List String) (i : Nat),
        (∀ u ∈ pre, lowerCpp u ≠ "geo") → lowerCpp t = "geo" →
        geoIndexOfTokens (pre ++ t :: post) i = ((i + pre.length : Nat) : Int)) ∧
    (∀ (V : Type) (tryCast : String → Option V) (st : ScanState V) (tps : List String)
        (g : Nat) (line : String) (b : Bool) (st2 : ScanState V) (t0 : String)
        (tl : List String),
        ParseDatarow tryCast st tps (g : Int) line false = some (b, st2) →
        cppGetlineSplit '\t' line = t0 :: tl →
        g < (cppGetlineSplit ',' t0).length ∧
        st2.dimensions = st.dimensions ++
          [cppGetlineSplit ',' t0 ++
            [GetGeoLevelFromGeoCode ((cppGetlineSplit ',' t0).getD g "")]]) :=
  ⟨geoIndex_none, geoIndex_first, c6_geo_append⟩

/-- Witness for the amended C6 at concrete inputs: `geo` is found at index 0
of the key columns `geo,unit`, and the parsed line `AL,NR\t5` appends
`country` (the classification of `AL`) as the last value of the row. -/
theorem c6_geo_level_value_amended_witness :
    geoIndexOfTokens (["geo"] : List String) 0 = ((0 : Nat) : Int) ∧
    (0 < (cppGetlineSplit ',' "AL,NR").length ∧
      (⟨[["AL", "NR", "country"]], [⟨0, "2020", "5"⟩], []⟩ : ScanState String).dimensions =
        ([] : List (List String)) ++
          [cppGetlineSplit ',' "AL,NR" ++
            [GetGeoLevelFromGeoCode ((cppGetlineSplit ',' "AL,NR").getD 0 "")]]) :=
  ⟨by
    have h := c6_geo_level_value_amended.2.1 [] "geo" [] 0
      (fun u hu => absurd hu (List.not_mem_nil u)) (by decide)
    simpa using h,
   c6_geo_level_value_amended.2.2 String some ⟨[], [], []⟩ ["2020"] 0 "AL,NR\t5" true
      ⟨[["AL", "NR", "country"]], [⟨0, "2020", "5"⟩], []⟩ "AL,NR" ["5"] (by decide)
      (by decide)⟩

/-! ## C4: deduplication idempotence -/

/-- The key-check loop only ever inserts keys. -/
theorem scanKeys_subset (k0 : String) :
    ∀ (tps keys : List String) (x : String), x ∈ keys →
      x ∈ (scanKeys k0 keys tps).2.1 := by
  intro tps
  induction tps with
  | nil =>
    intro keys x hx
    rw [scanKeys]
    exact hx
  | cons tp rest ih =>
    intro keys x hx
    rw [scanKeys]
    by_cases hmem : (k0 ++ "|" ++ tp) ∈ keys
    · rw [if_pos hmem]
      exact ih keys x hx
    · rw [if_neg hmem]
      exact ih (keys ++ [k0 ++ "|" ++ tp]) x (List.mem_append_left _ hx)

/-- After the key-check loop every row key of the line is recorded. -/
theorem scanKeys_all_mem (k0 : String) :
    ∀ (tps keys : List String) (tp : String), tp ∈ tps →
      (k0 ++ "|" ++ tp) ∈ (scanKeys k0 keys tps).2.1 := by
  intro tps
  induction tps with
  | nil =>
    intro keys tp htp
    exact absurd htp (List.not_mem_nil tp)
  | cons hd rest ih =>
    intro keys tp htp
    rw [scanKeys]
    rcases List.mem_cons.mp htp with rfl | hmem2
    · by_cases hmem : (k0 ++ "|" ++ tp) ∈ keys
      · rw [if_pos hmem]
        exact scanKeys_subset k0 rest keys _ hmem
      · rw [if_neg hmem]
        exact scanKeys_subset k0 rest _ _ (List.mem_append_right _ (List.mem_singleton.mpr rfl))
    · by_cases hmem : (k0 ++ "|" ++ hd) ∈ keys
      · rw [if_pos hmem]
        exact ih keys tp hmem2
      · rw [if_neg hmem]
        exact ih _ tp hmem2

/-- When every row key of the line was already seen, the loop records
nothing and reports `all_are_duplicated`. -/
theorem scanKeys_all_dup (k0 : String) :
    ∀ (tps keys : List String), (∀ tp ∈ tps, (k0 ++ "|" ++ tp) ∈ keys) →
      scanKeys k0 keys tps = (List.replicate tps.length true, keys, true) := by
  intro tps
  induction tps with
  | nil =>
    intro keys _
    rw [scanKeys]
    rfl
  | cons hd rest ih =>
    intro keys hall
    rw [scanKeys, if_pos (hall hd (List.mem_cons_self hd rest)),
      ih keys (fun tp htp => hall tp (List.mem_cons_of_mem hd htp))]
    rfl

/-- The tail of `ParseDatarow` stores exactly the key set produced by the
key-check loop. -/
theorem parseRowRest_keys {V : Type} (tryCast : String → Option V) (st : ScanState V)
    (tps : List String) (geoIdx : Int) (ck : Bool) (toks : List String) (t0 : String)
    (sk : List Bool) (keys2 : List String) (b : Bool) (st2 : ScanState V)
    (h : parseRowRest tryCast st tps geoIdx ck toks t0 sk keys2 = some (b, st2)) :
    st2.row_keys = keys2 := by
  rw [parseRowRest] at h
  split at h
  · exact absurd h (by simp)
  · rename_i dv heq
    rcases hob : obsLoop tryCast toks sk ck ((st.dimensions ++ [dv]).length - 1) tps 0
        st.rows with - | rows2
    · simp only [hob] at h
      exact absurd h (by simp)
    · simp only [hob, Option.some.injEq, Prod.mk.injEq] at h
      rw [← h.2]

/-- With dedup enabled, `ParseDatarow` never removes a recorded key. -/
theorem parseDatarow_keys_mono {V : Type} (tryCast : String → Option V)
    (st : ScanState V) (tps : List String) (geoIdx : Int) (line : String) (b : Bool)
    (st2 : ScanState V)
    (h : ParseDatarow tryCast st tps geoIdx line true = some (b, st2)) :
    ∀ x ∈ st.row_keys, x ∈ st2.row_keys := by
  rcases htok : cppGetlineSplit '\t' line with - | ⟨t0, tl⟩
  · rw [ParseDatarow, htok] at h
    simp only [Option.some.injEq, Prod.mk.injEq] at h
    rw [← h.2]
    exact fun x hx => hx
  · rw [ParseDatarow, htok] at h
    simp only [if_true] at h
    by_cases hdup : (scanKeys t0 st.row_keys tps).2.2 = true
    · simp only [hdup, if_true, Option.some.injEq, Prod.mk.injEq] at h
      rw [← h.2]
      exact fun x hx => scanKeys_subset t0 tps st.row_keys x hx
    · simp only [hdup, if_false] at h
      rw [parseRowRest_keys tryCast st tps geoIdx true (t0 :: tl) t0 _ _ b st2 h]
      exact fun x hx => scanKeys_subset t0 tps st.row_keys x hx

/-- With dedup enabled, after a successful `ParseDatarow` every row key of
the line is recorded (whether or not its value was kept). -/
theorem parseDatarow_keys_recorded {V : Type} (tryCast : String → Option V)
    (st : ScanState V) (tps : List String) (geoIdx : Int) (line : String) (b : Bool)
    (st2 : ScanState V) (t0 : String) (tl : List String)
    (h : ParseDatarow tryCast st tps geoIdx line true = some (b, st2))
    (htok : cppGetlineSplit '\t' line = t0 :: tl) :
    ∀ tp ∈ tps, (t0 ++ "|" ++ tp) ∈ st2.row_keys := by
  rw [ParseDatarow, htok] at h
  simp only [if_true] at h
  by_cases hdup : (scanKeys t0 st.row_keys tps).2.2 = true
  · simp only [hdup, if_true, Option.some.injEq, Prod.mk.injEq] at h
    rw [← h.2]
    exact fun tp htp => scanKeys_all_mem t0 tps st.row_keys tp htp
  · simp only [hdup, if_false] at h
    rw [parseRowRest_keys tryCast st tps geoIdx true (t0 :: tl) t0 _ _ b st2 h]
    exact fun tp htp => scanKeys_all_mem t0 tps st.row_keys tp htp

/-- With dedup enabled, a line all of whose row keys are already recorded
is dropped whole: the state is returned unchanged. -/
theorem parseDatarow_second_pass {V : Type} (tryCast : String → Option V)
    (st : ScanState V) (tps : List String) (geoIdx : Int) (line : String) (t0 : String)
    (tl : List String) (htok : cppGetlineSplit '\t' line = t0 :: tl)
    (hall : ∀ tp ∈ tps, (t0 ++ "|" ++ tp) ∈ st.row_keys) :
    ParseDatarow tryCast st tps geoIdx line true = some (true, st) := by
  rw [ParseDatarow, htok]
  simp only [if_true]
  rw [scanKeys_all_dup t0 tps st.row_keys hall]
  simp

/-- The data-line loop composes over concatenation of payloads. -/
theorem parseDataLines_append {V : Type} (tryCast : String → Option V)
    (tps : List String) (geoIdx : Int) (ck : Bool) :
    ∀ (l1 l2 : List String) (st : ScanState V),
      parseDataLines tryCast tps geoIdx ck st (l1 ++ l2) =
        (parseDataLines tryCast tps geoIdx ck st l1).bind
          (fun st2 => parseDataLines tryCast tps geoIdx ck st2 l2) := by
  intro l1
  induction l1 with
  | nil =>
    intro l2 st
    rw [List.nil_append, parseDataLines]
    rfl
  | cons line rest ih =>
    intro l2 st
    rw [List.cons_append, parseDataLines, parseDataLines]
    by_cases hl : line = ""
    · rw [if_pos hl, if_pos hl]
      exact ih l2 st
    · rw [if_neg hl, if_neg hl]
      rcases hp : ParseDatarow tryCast st tps geoIdx line ck with - | ⟨b, st2⟩
      · rfl
      · exact ih l2 st2

/-- The data-line loop never removes a recorded key. -/
theorem parseDataLines_keys_mono {V : Type} (tryCast : String → Option V)
    (tps : List String) (geoIdx : Int) :
    ∀ (ls : List String) (st st2 : ScanState V),
      parseDataLines tryCast tps geoIdx true st ls = some st2 →
      ∀ x ∈ st.row_keys, x ∈ st2.row_keys := by
  intro ls
  induction ls with
  | nil =>
    intro st st2 h
    rw [parseDataLines] at h
    simp only [Option.some.injEq] at h
    rw [← h]
    exact fun x hx => hx
  | cons line rest ih =>
    intro st st2 h
    rw [parseDataLines] at h
    by_cases hl : line = ""
    · rw [if_pos hl] at h
      exact ih st st2 h
    · rw [if_neg hl] at h
      rcases hp : ParseDatarow tryCast st tps geoIdx line true with - | ⟨b, stm⟩
      · rw [hp] at h
        exact absurd h (by simp)
      · rw [hp] at h
        exact fun x hx =>
          ih stm st2 h x (parseDatarow_keys_mono tryCast st tps geoIdx line b stm hp x hx)

/-- After parsing a payload with dedup enabled, every row key of every
non-empty line of the payload is recorded. -/
theorem parseDataLines_keys_all {V : Type} (tryCast : String → Option V)
    (tps : List String) (geoIdx : Int) :
    ∀ (ls : List String) (st st2 : ScanState V),
      parseDataLines tryCast tps geoIdx true st ls = some st2 →
      ∀ line ∈ ls, ∀ t0 tl, cppGetlineSplit '\t' line = t0 :: tl →
        ∀ tp ∈ tps, (t0 ++ "|" ++ tp) ∈ st2.row_keys := by
  intro ls
  induction ls with
  | nil =>
    intro st st2 h line hline
    exact absurd hline (List.not_mem_nil line)
  | cons l0 rest ih =>
    intro st st2 h line hline t0 tl htok tp htp
    rw [parseDataLines] at h
    by_cases hl : l0 = ""
    · rw [if_pos hl] at h
      rcases List.mem_cons.mp hline with rfl | hmem
      · rw [hl, show cppGetlineSplit '\t' "" = ([] : List String) from by decide]
          at htok
        exact absurd htok (by simp)
      · exact ih st st2 h line hmem t0 tl htok tp htp
    · rw [if_neg hl] at h
      rcases hp : ParseDatarow tryCast st tps geoIdx l0 true with - | ⟨b, stm⟩
      · rw [hp] at h
        exact absurd h (by simp)
      · rw [hp] at h
        rcases List.mem_cons.mp hline with rfl | hmem
        · exact parseDataLines_keys_mono tryCast tps geoIdx rest stm st2 h _
            (parseDatarow_keys_recorded tryCast st tps geoIdx line b stm t0 tl hp htok
              tp htp)
        · exact ih stm st2 h line hmem t0 tl htok tp htp

/-- A payload all of whose row keys are already recorded parses to the
unchanged state. -/
theorem parseDataLines_second_pass {V : Type} (tryCast : String → Option V)
    (tps : List String) (geoIdx : Int) :
    ∀ (ls : List String) (st : ScanState V),
      (∀ line ∈ ls, line ≠ "" → ∀ t0 tl, cppGetlineSplit '\t' line = t0 :: tl →
        ∀ tp ∈ tps, (t0 ++ "|" ++ tp) ∈ st.row_keys) →
      parseDataLines tryCast tps geoIdx true st ls = some st := by
  intro ls
  induction ls with
  | nil =>
    intro st _
    rfl
  | cons l0 rest ih =>
    intro st hall
    rw [parseDataLines]
    by_cases hl : l0 = ""
    · rw [if_pos hl]
      exact ih st fun line hm => hall line (List.mem_cons_of_mem l0 hm)
    · rw [if_neg hl]
      rcases htok : cppGetlineSplit '\t' l0 with - | ⟨t0, tl⟩
      · rw [ParseDatarow, htok]
        exact ih st fun line hm => hall line (List.mem_cons_of_mem l0 hm)
      · rw [parseDatarow_second_pass tryCast st tps geoIdx l0 t0 tl htok
          (hall l0 (List.mem_cons_self l0 rest) hl t0 tl htok)]
        exact ih st fun line hm => hall line (List.mem_cons_of_mem l0 hm)

/-- C4: with row deduplication enabled — which is the case exactly when
more than one unique URL is fetched for the scan
(`check_keys = data_urls.size() > 1`) — feeding the same wire payload a
second time through the data-line parser yields exactly the same scan state
(the same Dimension Values rows, Observation rows and key table) as feeding
it once: the row key is the raw key-field token, `|` and the time period;
keys are recorded before values are kept; and any already-seen key drops
the candidate value. -/
theorem c4_dedup_idempotent :
    ∀ (V : Type) (tryCast : String → Option V) (tps : List String) (geoIdx : Int)
      (base_url : String) (complex_filters : List String) (st st1 : ScanState V)
      (lines : List String),
      checkKeysEnabled base_url complex_filters = true →
      parseDataLines tryCast tps geoIdx (checkKeysEnabled base_url complex_filters) st
        lines = some st1 →
      parseDataLines tryCast tps geoIdx (checkKeysEnabled base_url complex_filters) st
        (lines ++ lines) = some st1 := by
  intro V tryCast tps geoIdx base_url complex_filters st st1 lines hck h
  rw [hck] at h ⊢
  rw [parseDataLines_append, h]
  exact parseDataLines_second_pass tryCast tps geoIdx lines st1
    (fun line hm _ t0 tl htok tp htp =>
      parseDataLines_keys_all tryCast tps geoIdx lines st st1 h line hm t0 tl htok tp htp)

/-- Witness for C4 at concrete inputs: two compiled clauses give two unique
URLs enabling dedup, and the one-line payload fed twice produces the same
single Dimension Values row and single Observation row as feeding it once. -/
theorem c4_dedup_idempotent_witness :
    checkKeysEnabled "u" ["/A?", "/B?"] = true ∧
    @parseDataLines String some ["2020"] (-1)
      (checkKeysEnabled "u" ["/A?", "/B?"]) ⟨[], [], []⟩ (["x\t5"] ++ ["x\t5"]) =
      some ⟨[["x"]], [⟨0, "2020", "5"⟩], ["x|2020"]⟩ :=
  ⟨by decide,
   c4_dedup_idempotent String some ["2020"] (-1) "u" ["/A?", "/B?"] ⟨[], [], []⟩
     ⟨[["x"]], [⟨0, "2020", "5"⟩], ["x|2020"]⟩ ["x\t5"] (by decide) (by decide)⟩

/-! ## C8: geo-level classifier helper lemmas -/

theorem codes_no_agg :
    ("EU" : String) ∉ COUNTRY_CODES ∧ ("EA" : String) ∉ COUNTRY_CODES := by
  decide

/-- Codes of a known country followed by `_` and four more characters
classify as `city`. -/
theorem city_of_code (C t : String) (hmem : C ∈ COUNTRY_CODES) (hlen : C.length = 2)
    (ht : t.length = 4) : GetGeoLevelFromGeoCode (C ++ "_" ++ t) = "city" := by
  obtain ⟨l⟩ := C
  obtain ⟨c1, c2, hC⟩ := list_len2 l hlen
  subst hC
  obtain ⟨d1, d2, d3, d4, hT⟩ := list_len4 t.data ht
  have hdata : (String.mk [c1, c2] ++ "_" ++ t).data =
      c1 :: c2 :: '_' :: [d1, d2, d3, d4] := by
    simp [String.data_append, hT]
  have hEU : ¬(c1 = 'E' ∧ c2 = 'U') := by
    rintro ⟨rfl, rfl⟩
    exact codes_no_agg.1 hmem
  have hEA : ¬(c1 = 'E' ∧ c2 = 'A') := by
    rintro ⟨rfl, rfl⟩
    exact codes_no_agg.2 hmem
  have hb : supranationalStart (c1 :: c2 :: '_' :: [d1, d2, d3, d4]) = false := by
    simp only [supranationalStart, startsWithChars, List.isPrefixOf, Bool.or_eq_false_iff,
      Bool.and_eq_false_iff]
    refine ⟨⟨?_, ?_⟩, ?_⟩
    · by_cases h1 : c1 = 'E'
      · subst h1
        by_cases h2 : c2 = 'U'
        · exact absurd ⟨rfl, h2⟩ hEU
        · right
          left
          simpa using fun h => h2 h.symm
      · left
        simpa using fun h => h1 h.symm
    · by_cases h1 : c1 = 'E'
      · subst h1
        by_cases h2 : c2 = 'A'
        · exact absurd ⟨rfl, h2⟩ hEA
        · right
          left
          simpa using fun h => h2 h.symm
      · left
        simpa using fun h => h1 h.symm
    · right
      right
      left
      decide
  have hcc : isCountryCode [c1, c2] = true := by
    simpa [isCountryCode, List.contains, List.elem_iff] using hmem
  rw [GetGeoLevelFromGeoCode, hdata, geoLevelOfChars, if_neg (by simp [hb]),
    if_neg (by simp), if_neg (by simp), if_neg (by simp), if_neg (by simp),
    if_pos (by simp), if_pos (by simp [hcc])]

/-- The four finite classification families, settled by evaluation over the
country-code list. -/
theorem codes_classify :
    ∀ C ∈ COUNTRY_CODES, C.length = 2 →
      GetGeoLevelFromGeoCode C = "country" ∧
      GetGeoLevelFromGeoCode (C ++ "1") = "nuts1" ∧
      GetGeoLevelFromGeoCode (C ++ "12") = "nuts2" ∧
      GetGeoLevelFromGeoCode (C ++ "123") = "nuts3" := by
  decide

/-! ## Claim theorems -/

/-- C8: the geo-level classifier is a pure total function with:
supranational prefixes (`EU`/`EA`/`EFTA`) ↦ `aggregate`; for every known
2-letter country code `C`: `C ↦ country`, `C+"1" ↦ nuts1`, `C+"12" ↦ nuts2`,
`C+"123" ↦ nuts3`, and `C`, an underscore and four further characters
(7 characters with the underscore at index 2, the claim's `C+"_XXX"` shape)
↦ `city`; `"EU27_2020" ↦ aggregate`; an unknown 2-letter code such as `"ZZ"`,
a 7-character code failing the country-prefix/underscore conditions, and any
other length ↦ `unknown`. -/
theorem c8_geo_level_classifier :
    (∀ s : String, supranationalStart s.data = true →
        GetGeoLevelFromGeoCode s = "aggregate") ∧
    (∀ C ∈ COUNTRY_CODES, C.length = 2 →
        GetGeoLevelFromGeoCode C = "country" ∧
        GetGeoLevelFromGeoCode (C ++ "1") = "nuts1" ∧
        GetGeoLevelFromGeoCode (C ++ "12") = "nuts2" ∧
        GetGeoLevelFromGeoCode (C ++ "123") = "nuts3" ∧
        ∀ t : String, t.length = 4 →
          GetGeoLevelFromGeoCode (C ++ "_" ++ t) = "city") ∧
    GetGeoLevelFromGeoCode "EU27_2020" = "aggregate" ∧
    GetGeoLevelFromGeoCode "ZZ" = "unknown" ∧
    (∀ s : String, supranationalStart s.data = false → s.length = 2 →
        isCountryCode s.data = false → GetGeoLevelFromGeoCode s = "unknown") ∧
    (∀ s : String, supranationalStart s.data = false → s.length = 7 →
        ¬(isCountryCode (s.data.take 2) = true ∧ s.data.getD 2 ' ' = '_') →
        GetGeoLevelFromGeoCode s = "unknown") ∧
    (∀ s : String, supranationalStart s.data = false →
        s.length ≠ 2 → s.length ≠ 3 → s.length ≠ 4 → s.length ≠ 5 → s.length ≠ 7 →
        GetGeoLevelFromGeoCode s = "unknown") := by
  refine ⟨?_, ?_, by decide, by decide, ?_, ?_, ?_⟩
  · intro s h
    rw [GetGeoLevelFromGeoCode, geoLevelOfChars, if_pos h]
  · intro C hmem hlen
    obtain ⟨h1, h2, h3, h4⟩ := codes_classify C hmem hlen
    exact ⟨h1, h2, h3, h4, fun t ht => city_of_code C t hmem hlen ht⟩
  · intro s hagg hlen hcc
    have hdl : s.data.length = 2 := hlen
    rw [GetGeoLevelFromGeoCode, geoLevelOfChars, if_neg (by simp [hagg]), if_pos hdl,
      if_neg (by simp [hcc])]
  · intro s hagg hlen hcond
    have hdl : s.data.length = 7 := hlen
    rw [GetGeoLevelFromGeoCode, geoLevelOfChars, if_neg (by simp [hagg]),
      if_neg (by omega), if_neg (by omega), if_neg (by omega), if_neg (by omega),
      if_pos hdl, if_neg (by simpa using hcond)]
  · intro s hagg h2 h3 h4 h5 h7
    have hdl2 : ¬(s.data.length = 2) := h2
    have hdl3 : ¬(s.data.length = 3) := h3
    have hdl4 : ¬(s.data.length = 4) := h4
    have hdl5 : ¬(s.data.length = 5) := h5
    have hdl7 : ¬(s.data.length = 7) := h7
    rw [GetGeoLevelFromGeoCode, geoLevelOfChars, if_neg (by simp [hagg]),
      if_neg hdl2, if_neg hdl3, if_neg hdl4, if_neg hdl5, if_neg hdl7]

/-- Witness for C8 at concrete inputs. -/
theorem c8_geo_level_classifier_witness :
    GetGeoLevelFromGeoCode "EU27_2020" = "aggregate" ∧
    GetGeoLevelFromGeoCode "DE" = "country" ∧
    GetGeoLevelFromGeoCode "DE1" = "nuts1" ∧
    GetGeoLevelFromGeoCode "DE12" = "nuts2" ∧
    GetGeoLevelFromGeoCode "DE123" = "nuts3" ∧
    GetGeoLevelFromGeoCode "DE_0ABC" = "city" ∧
    GetGeoLevelFromGeoCode "ZZ" = "unknown" ∧
    GetGeoLevelFromGeoCode "DE_0AB" = "unknown" := by
  obtain ⟨hagg, hcountry, heu, hzz, hunk2, hunk7, hother⟩ := c8_geo_level_classifier
  have hDE := hcountry "DE" (by decide) (by decide)
  refine ⟨heu, hDE.1, hDE.2.1, hDE.2.2.1, hDE.2.2.2.1, ?_, hzz, ?_⟩
  · exact hDE.2.2.2.2 "0ABC" (by decide)
  · exact hother "DE_0AB" (by decide) (by decide) (by decide) (by decide) (by decide)
      (by decide)

/-- C7 counterexample: a transport response with non-success status `500`
whose content type is `application/xml` does **not** fail the scan — the
XML-error-document check precedes the status check and the scan returns
zero rows, contradicting the claim that every non-success status fails the
scan with a fetch error. -/
theorem c7_counterexample :
    handleResponse ⟨500, "<xml/>", "application/xml", ""⟩ "ESTAT" "DEMO_R_D2JAN" =
      FetchOutcome.zeroRows := by
  decide

/-- C7 (amended): per-response handling in `ES_Read::Init` checks the
content type first — an `application/xml` response yields zero rows without
error regardless of status; otherwise a non-success status code fails the
scan immediately with a fetch error that names the dataset and embeds the
upstream status and message; otherwise a non-empty transport error string
fails the scan immediately with an error that embeds the upstream message
(but does not name the dataset). -/
theorem c7_fetch_failure_amended (r : HttpResponse) (provider_id dataflow_id : String) :
    (r.content_type = "application/xml" →
      handleResponse r provider_id dataflow_id = .zeroRows) ∧
    (r.content_type ≠ "application/xml" → r.status_code ≠ 200 →
      handleResponse r provider_id dataflow_id =
        .fatal (fetchErrorMessage provider_id dataflow_id r.status_code r.error) ∧
      (∃ u v, fetchErrorMessage provider_id dataflow_id r.status_code r.error =
        u ++ dataflow_id ++ v) ∧
      (∃ u v, fetchErrorMessage provider_id dataflow_id r.status_code r.error =
        u ++ toString r.status_code ++ v) ∧
      ∃ u, fetchErrorMessage provider_id dataflow_id r.status_code r.error =
        u ++ r.error) ∧
    (r.content_type ≠ "application/xml" → r.status_code = 200 → r.error ≠ "" →
      handleResponse r provider_id dataflow_id = .fatal ("EUROSTAT: " ++ r.error)) := by
  refine ⟨?_, ?_, ?_⟩
  · intro h
    rw [handleResponse, if_pos h]
  · intro hct hst
    refine ⟨by rw [handleResponse, if_neg hct, if_pos hst], ?_, ?_, ?_⟩
    · exact ⟨"EUROSTAT: Failed to fetch a dataset from provider='" ++ provider_id ++
        "', dataflow='",
        "': (" ++ toString r.status_code ++ ") " ++ r.error,
        by simp [fetchErrorMessage, String.append_assoc]⟩
    · exact ⟨"EUROSTAT: Failed to fetch a dataset from provider='" ++ provider_id ++
        "', dataflow='" ++ dataflow_id ++ "': (",
        ") " ++ r.error,
        by simp [fetchErrorMessage, String.append_assoc]⟩
    · exact ⟨"EUROSTAT: Failed to fetch a dataset from provider='" ++ provider_id ++
        "', dataflow='" ++ dataflow_id ++ "': (" ++ toString r.status_code ++ ") ",
        by simp [fetchErrorMessage, String.append_assoc]⟩
  · intro hct hst herr
    rw [handleResponse, if_neg hct, if_neg (by simp [hst]), if_pos herr]

/-- Witness for C7 (amended) at concrete inputs. -/
theorem c7_fetch_failure_amended_witness :
    handleResponse ⟨404, "", "text/plain", "not found"⟩ "ESTAT" "DEMO_R_D2JAN" =
      .fatal (fetchErrorMessage "ESTAT" "DEMO_R_D2JAN" 404 "not found") ∧
    handleResponse ⟨200, "", "text/plain", "boom"⟩ "ESTAT" "DEMO_R_D2JAN" =
      .fatal ("EUROSTAT: " ++ "boom") ∧
    handleResponse ⟨500, "<xml/>", "application/xml", ""⟩ "ESTAT" "DEMO_R_D2JAN" =
      .zeroRows := by
  refine ⟨?_, ?_, ?_⟩
  · exact ((c7_fetch_failure_amended ⟨404, "", "text/plain", "not found"⟩ "ESTAT"
      "DEMO_R_D2JAN").2.1 (by decide) (by decide)).1
  · exact (c7_fetch_failure_amended ⟨200, "", "text/plain", "boom"⟩ "ESTAT"
      "DEMO_R_D2JAN").2.2 (by decide) (by decide) (by decide)
  · exact (c7_fetch_failure_amended ⟨500, "<xml/>", "application/xml", ""⟩ "ESTAT"
      "DEMO_R_D2JAN").1 (by decide)

/-! ## C3 / C5: clause structure of the OR fan-out and the IN encoding -/

/-- A string with non-empty character data is not the empty string. -/
theorem str_ne_empty_of_data {s : String} (h : s.data ≠ []) : s ≠ "" := by
  intro he
  subst he
  exact h rfl

/-- Appending a non-empty string on the right yields a non-empty string. -/
theorem append_right_ne_empty (a b : String) (hb : b ≠ "") : a ++ b ≠ "" := by
  apply str_ne_empty_of_data
  rw [String.data_append]
  intro h
  rcases List.append_eq_nil.mp h with ⟨-, h2⟩
  exact hb (String.ext h2)

/-- Appending to a non-empty string on the left yields a non-empty string. -/
theorem append_left_ne_empty (a b : String) (ha : a ≠ "") : a ++ b ≠ "" := by
  apply str_ne_empty_of_data
  rw [String.data_append]
  intro h
  rcases List.append_eq_nil.mp h with ⟨h1, -⟩
  exact ha (String.ext h1)

/-- The mask fold of `GetFilterString` splits over list append. -/
theorem maskClause_append (xs ys : List String) (acc : String) :
    maskClause (xs ++ ys) acc = maskClause ys (maskClause xs acc) := by
  induction xs generalizing acc with
  | nil => rfl
  | cons m rest ih =>
    rw [List.cons_append]
    by_cases hm : m = VIRTUAL_DIMENSION_FLAG
    · simp only [maskClause]
      rw [if_pos hm, if_pos hm]
      exact ih acc
    · simp only [maskClause]
      rw [if_neg hm, if_neg hm]
      exact ih _

/-- Once the accumulated clause is non-empty, the mask fold only appends:
the result is the accumulator followed by `maskTail` of the rest. -/
theorem maskClause_acc (xs : List String) : ∀ acc, acc ≠ "" →
    maskClause xs acc = acc ++ maskTail xs := by
  induction xs with
  | nil =>
    intro acc h
    simp [maskClause, maskTail]
  | cons m rest ih =>
    intro acc h
    by_cases hm : m = VIRTUAL_DIMENSION_FLAG
    · simp only [maskClause, maskTail]
      rw [if_pos hm, if_pos hm]
      exact ih acc h
    · simp only [maskClause, maskTail]
      rw [if_neg hm, if_neg hm, if_neg h]
      rw [ih (acc ++ m ++ ".") (append_right_ne_empty _ _ (by decide))]
      simp [String.append_assoc]

/-- The selector clause of a mask with entry `j` overwritten by a non-flag
value `v`: a prefix and suffix independent of `v` surround `v` itself. -/
theorem maskClause_set (M : List String) (j : Nat) (v : String) (hj : j < M.length)
    (hv : v ≠ VIRTUAL_DIMENSION_FLAG) :
    maskClause (M.set j v) "" =
      ((if maskClause (M.take j) "" = "" then "/" else maskClause (M.take j) "") ++ v) ++
        ("." ++ maskTail (M.drop (j + 1))) := by
  rw [List.set_eq_take_append_cons_drop, if_pos hj, maskClause_append]
  simp only [maskClause]
  rw [if_neg hv]
  rw [maskClause_acc _ _ (append_right_ne_empty _ _ (by decide))]
  rw [String.append_assoc]

/-- Character data of the full filter string of a one-slot filter: prefix,
the slot value, and suffix, with the prefix and suffix independent of the
value written into the slot. -/
theorem getFilterString_set_data (M : List String) (j : Nat) (v : String)
    (hj : j < M.length) (hv : v ≠ VIRTUAL_DIMENSION_FLAG) :
    (EurostatFilter.GetFilterString ⟨M.set j v, "", ""⟩).data =
      (if maskClause (M.take j) "" = "" then "/" else maskClause (M.take j) "").data ++
        (v.data ++ (('.' :: (maskTail (M.drop (j + 1))).data).dropLast ++ ['?'])) := by
  have hBne : (if maskClause (M.take j) "" = "" then "/" else maskClause (M.take j) "") ≠ "" := by
    by_cases hA : maskClause (M.take j) "" = ""
    · rw [if_pos hA]
      decide
    · rw [if_neg hA]
      exact hA
  have hc0 := maskClause_set M j v hj hv
  have hc0ne : maskClause (M.set j v) "" ≠ "" := by
    rw [hc0]
    exact append_left_ne_empty _ _ (append_left_ne_empty _ _ hBne)
  simp only [EurostatFilter.GetFilterString]
  rw [if_neg hc0ne]
  simp only [if_true]
  rw [hc0]
  rw [popBack, String.data_append, String.data_append, String.data_append]
  rw [show ("." ++ maskTail (M.drop (j + 1))).data =
        '.' :: (maskTail (M.drop (j + 1))).data from rfl]
  rw [List.dropLast_append_of_ne_nil _ (List.cons_ne_nil _ _)]
  rw [show ("?" : String).data = ['?'] from rfl]
  simp [List.append_assoc]

/-- Distinct non-flag values written into the same mask slot yield distinct
filter strings. -/
theorem getFilterString_set_inj (M : List String) (j : Nat) (v1 v2 : String)
    (hj : j < M.length) (hv1 : v1 ≠ VIRTUAL_DIMENSION_FLAG)
    (hv2 : v2 ≠ VIRTUAL_DIMENSION_FLAG) (hne : v1 ≠ v2) :
    EurostatFilter.GetFilterString ⟨M.set j v1, "", ""⟩ ≠
      EurostatFilter.GetFilterString ⟨M.set j v2, "", ""⟩ := by
  intro h
  have hd := congrArg String.data h
  rw [getFilterString_set_data M j v1 hj hv1, getFilterString_set_data M j v2 hj hv2] at hd
  have h2 := List.append_cancel_left hd
  have h3 := List.append_cancel_right h2
  exact hne (String.ext h3)

/-- A dimension that is neither virtual nor the time dimension starts with
an empty (not flagged) mask entry. -/
theorem initMaskEntry_plain {ds : List Dimension} {j : Nat} (hj : j < ds.length)
    (hpos : (ds.get ⟨j, hj⟩).position ≠ -1)
    (hname : (ds.get ⟨j, hj⟩).name ≠ TIME_PERIOD_DIMENSION_NAME) :
    initMaskEntry (ds.get ⟨j, hj⟩) = "" := by
  rw [initMaskEntry, if_neg]
  push_neg
  exact ⟨hpos, hname⟩

/-- Indexing the freshly initialised mask. -/
theorem mask_get_fresh {ds : List Dimension} {j : Nat} (hj : j < ds.length) :
    (ds.map initMaskEntry).get? j = some (initMaskEntry (ds.get ⟨j, hj⟩)) := by
  rw [List.get?_eq_getElem?, List.getElem?_map, List.getElem?_eq_getElem hj]
  rfl

/-- Indexing a mask at the slot just overwritten. -/
theorem mask_get_set {M : List String} {j : Nat} (hj : j < M.length) (m : String) :
    (M.set j m).get? j = some m := by
  rw [List.get?_eq_getElem?, List.getElem?_set_self hj]

/-- One equality encode against a branch whose current filter is fresh, on a
plain (non-virtual, non-time) dimension: the value is written into mask slot
`j` of the current branch (`filter_encoder.cpp:171-187`). -/
theorem encodeCC_fresh (ds : List Dimension) (j : Nat) (hj : j < ds.length)
    (hpos : (ds.get ⟨j, hj⟩).position ≠ -1)
    (hname : (ds.get ⟨j, hj⟩).name ≠ TIME_PERIOD_DIMENSION_NAME)
    (v : String) (L : List EurostatFilter) (sup : Bool) :
    EncodeConstantComparison ⟨.COMPARE_EQUAL, ⟨false, v⟩⟩ (ds.get ⟨j, hj⟩) j
      ⟨ds, L ++ [mkEurostatFilter ds], sup⟩ =
      .ok (true, ⟨ds, L ++ [⟨(ds.map initMaskEntry).set j v, "", ""⟩], sup⟩) := by
  have hcur : EurostatFilterSet.GetCurrentFilter ⟨ds, L ++ [mkEurostatFilter ds], sup⟩ =
      mkEurostatFilter ds := by
    simp [EurostatFilterSet.GetCurrentFilter]
  simp only [EncodeConstantComparison, hcur]
  rw [if_neg (by simp)]
  rw [if_neg hname]
  simp only [GetComparisonOperator]
  rw [show (mkEurostatFilter ds).dim_mask = ds.map initMaskEntry from rfl]
  rw [mask_get_fresh hj, initMaskEntry_plain hj hpos hname]
  simp only [if_pos rfl]
  simp [EurostatFilterSet.SetCurrentFilter, mkEurostatFilter]

/-- One equality encode against a branch whose current filter already holds
`m` in slot `j`: the new value accumulates as `m ++ "+" ++ v`
(`filter_encoder.cpp:179`). -/
theorem encodeCC_acc (ds : List Dimension) (j : Nat) (hj : j < ds.length)
    (hname : (ds.get ⟨j, hj⟩).name ≠ TIME_PERIOD_DIMENSION_NAME)
    (m : String) (hm : m ≠ "") (v : String) (L : List EurostatFilter) (sup : Bool) :
    EncodeConstantComparison ⟨.COMPARE_EQUAL, ⟨false, v⟩⟩ (ds.get ⟨j, hj⟩) j
      ⟨ds, L ++ [⟨(ds.map initMaskEntry).set j m, "", ""⟩], sup⟩ =
      .ok (true, ⟨ds, L ++ [⟨(ds.map initMaskEntry).set j (m ++ "+" ++ v), "", ""⟩],
        sup⟩) := by
  have hcur : EurostatFilterSet.GetCurrentFilter
      ⟨ds, L ++ [⟨(ds.map initMaskEntry).set j m, "", ""⟩], sup⟩ =
      ⟨(ds.map initMaskEntry).set j m, "", ""⟩ := by
    simp [EurostatFilterSet.GetCurrentFilter]
  have hjm : j < (ds.map initMaskEntry).length := by
    rw [List.length_map]
    exact hj
  simp only [EncodeConstantComparison, hcur]
  rw [if_neg (by simp)]
  rw [if_neg hname]
  simp only [GetComparisonOperator]
  rw [mask_get_set hjm m]
  simp only []
  rw [if_neg hm]
  simp [EurostatFilterSet.SetCurrentFilter, List.set_set]

/-- One equality encode on the time dimension: both period bounds of the
current branch are set to the value (`filter_encoder.cpp:164-168`). -/
theorem encodeCC_time (ds : List Dimension) (j : Nat) (hj : j < ds.length)
    (hname : (ds.get ⟨j, hj⟩).name = TIME_PERIOD_DIMENSION_NAME)
    (v : String) (L : List EurostatFilter) (f : EurostatFilter) (sup : Bool) :
    EncodeConstantComparison ⟨.COMPARE_EQUAL, ⟨false, v⟩⟩ (ds.get ⟨j, hj⟩) j
      ⟨ds, L ++ [f], sup⟩ =
      .ok (true, ⟨ds, L ++ [{ f with
        start_period := "startPeriod=" ++ v,
        end_period := "endPeriod=" ++ v }], sup⟩) := by
  have hcur : EurostatFilterSet.GetCurrentFilter ⟨ds, L ++ [f], sup⟩ = f := by
    simp [EurostatFilterSet.GetCurrentFilter]
  simp only [EncodeConstantComparison, hcur]
  rw [if_neg (by simp)]
  rw [if_pos hname]
  simp [EurostatFilterSet.SetCurrentFilter]

/-- The IN value loop on a plain dimension starting from a slot already
holding the non-empty accumulator `m`: the remaining values accumulate as
`plusTail`, all into the same single branch. -/
theorem encodeInValues_run (ds : List Dimension) (j : Nat) (hj : j < ds.length)
    (hname : (ds.get ⟨j, hj⟩).name ≠ TIME_PERIOD_DIMENSION_NAME) :
    ∀ (rest : List String) (m : String), m ≠ "" →
    ∀ (L : List EurostatFilter) (sup : Bool),
    encodeInValues (ds.get ⟨j, hj⟩) j (rest.map (fun x => (⟨false, x⟩ : EsValue)))
      ⟨ds, L ++ [⟨(ds.map initMaskEntry).set j m, "", ""⟩], sup⟩ =
      .ok (true, ⟨ds, L ++ [⟨(ds.map initMaskEntry).set j (m ++ plusTail rest), "", ""⟩],
        sup⟩) := by
  intro rest
  induction rest with
  | nil =>
    intro m hm L sup
    simp [encodeInValues, plusTail]
  | cons x rest ih =>
    intro m hm L sup
    rw [List.map_cons, encodeInValues, encodeCC_acc ds j hj hname m hm x L sup]
    simp only []
    rw [ih (m ++ "+" ++ x) (append_left_ne_empty _ _ (append_right_ne_empty _ _ (by decide)))
      L sup]
    simp [plusTail, String.append_assoc]

/-- With the singleton projection `[j]`, binding index 0 maps to dimension
index `j` (no overflow below 2^31). -/
theorem getDim_single (ds : List Dimension) (j : Nat) (hj31 : j < 2147483648) :
    GetDimensionIndexFromColumnRef (.boundColumnRef 0) ds [j] = (j : Int) := by
  simp [GetDimensionIndexFromColumnRef, toInt32_small hj31]

/-- A supported equality node on a plain dimension encodes the value into
mask slot `j` of the current (fresh) branch. -/
theorem encodeNodeEq (ds : List Dimension) (j : Nat) (hj : j < ds.length)
    (hpos : (ds.get ⟨j, hj⟩).position ≠ -1)
    (hname : (ds.get ⟨j, hj⟩).name ≠ TIME_PERIOD_DIMENSION_NAME)
    (hj31 : j < 2147483648) (v : String) (L : List EurostatFilter) (sup : Bool) :
    EncodeExpressionNode (.boundComparison .COMPARE_EQUAL (.boundColumnRef 0)
      (.boundConstant ⟨false, v⟩)) ds [j] ⟨ds, L ++ [mkEurostatFilter ds], sup⟩ =
      .ok (true, ⟨ds, L ++ [⟨(ds.map initMaskEntry).set j v, "", ""⟩], sup⟩) := by
  have hgd := getDim_single ds j hj31
  have hd : ¬(GetDimensionIndexFromColumnRef (.boundColumnRef 0) ds [j] = -1) := by
    rw [hgd]
    omega
  have hlt : 0 ≤ GetDimensionIndexFromColumnRef (.boundColumnRef 0) ds [j] ∧
      (GetDimensionIndexFromColumnRef (.boundColumnRef 0) ds [j]).toNat < ds.length := by
    rw [hgd]
    refine ⟨Int.natCast_nonneg j, ?_⟩
    simpa using hj
  have hnat : (GetDimensionIndexFromColumnRef (.boundColumnRef 0) ds [j]).toNat = j := by
    rw [hgd]
    simp
  rw [EncodeExpressionNode, if_neg hd, dif_pos hlt]
  simp only [hnat]
  exact encodeCC_fresh ds j hj hpos hname v L sup

/-- The IN filter on a plain dimension, starting from a fresh branch:
all values accumulate into slot `j` joined by `"+"`. -/
theorem encodeInFresh (ds : List Dimension) (j : Nat) (hj : j < ds.length)
    (hpos : (ds.get ⟨j, hj⟩).position ≠ -1)
    (hname : (ds.get ⟨j, hj⟩).name ≠ TIME_PERIOD_DIMENSION_NAME)
    (v : String) (hv : v ≠ "") (rest : List String) (L : List EurostatFilter) (sup : Bool) :
    EncodeInFilter ⟨(v :: rest).map (fun x => (⟨false, x⟩ : EsValue))⟩ (ds.get ⟨j, hj⟩) j
      ⟨ds, L ++ [mkEurostatFilter ds], sup⟩ =
      .ok (true, ⟨ds, L ++ [⟨(ds.map initMaskEntry).set j (joinPlus (v :: rest)), "", ""⟩],
        sup⟩) := by
  rw [EncodeInFilter, if_neg (fun hc => hname hc.1)]
  rw [List.map_cons, encodeInValues, encodeCC_fresh ds j hj hpos hname v L sup]
  simp only []
  rw [encodeInValues_run ds j hj hname rest v hv L sup]
  simp [joinPlus]

/-- A supported IN node on a plain dimension encodes the joined selector set
into mask slot `j` of the current (fresh) branch. -/
theorem encodeNodeIn (ds : List Dimension) (j : Nat) (hj : j < ds.length)
    (hpos : (ds.get ⟨j, hj⟩).position ≠ -1)
    (hname : (ds.get ⟨j, hj⟩).name ≠ TIME_PERIOD_DIMENSION_NAME)
    (hj31 : j < 2147483648) (v : String) (hv : v ≠ "") (rest : List String)
    (L : List EurostatFilter) (sup : Bool) :
    EncodeExpressionNode (.boundOperator .COMPARE_IN (.boundColumnRef 0 ::
        ((v :: rest).map (fun x => (⟨false, x⟩ : EsValue))).map .boundConstant)) ds [j]
      ⟨ds, L ++ [mkEurostatFilter ds], sup⟩ =
      .ok (true, ⟨ds, L ++ [⟨(ds.map initMaskEntry).set j (joinPlus (v :: rest)), "", ""⟩],
        sup⟩) := by
  have hgd := getDim_single ds j hj31
  have hd : ¬(GetDimensionIndexFromColumnRef (.boundColumnRef 0) ds [j] = -1) := by
    rw [hgd]
    omega
  have hlt : 0 ≤ GetDimensionIndexFromColumnRef (.boundColumnRef 0) ds [j] ∧
      (GetDimensionIndexFromColumnRef (.boundColumnRef 0) ds [j]).toNat < ds.length := by
    rw [hgd]
    refine ⟨Int.natCast_nonneg j, ?_⟩
    simpa using hj
  have hnat : (GetDimensionIndexFromColumnRef (.boundColumnRef 0) ds [j]).toNat = j := by
    rw [hgd]
    simp
  rw [EncodeExpressionNode, if_neg (by simp), if_neg (by simp), if_neg hd,
    collectConstants_map]
  simp only []
  rw [dif_pos hlt]
  simp only [hnat]
  exact encodeInFresh ds j hj hpos hname v hv rest L sup

/-- An IN node on the time dimension with at least two values is
unsupported (`filter_encoder.cpp:194-196`). -/
theorem encodeNodeInTimeMulti (ds : List Dimension) (j : Nat) (hj : j < ds.length)
    (hname : (ds.get ⟨j, hj⟩).name = TIME_PERIOD_DIMENSION_NAME)
    (hj31 : j < 2147483648) (vs : List EsValue) (h2 : 2 ≤ vs.length)
    (s : EurostatFilterSet) :
    EncodeExpressionNode (.boundOperator .COMPARE_IN
        (.boundColumnRef 0 :: vs.map .boundConstant)) ds [j] s =
      .ok (false, s.markUnsupported) := by
  have hgd := getDim_single ds j hj31
  have hd : ¬(GetDimensionIndexFromColumnRef (.boundColumnRef 0) ds [j] = -1) := by
    rw [hgd]
    omega
  have hlt : 0 ≤ GetDimensionIndexFromColumnRef (.boundColumnRef 0) ds [j] ∧
      (GetDimensionIndexFromColumnRef (.boundColumnRef 0) ds [j]).toNat < ds.length := by
    rw [hgd]
    refine ⟨Int.natCast_nonneg j, ?_⟩
    simpa using hj
  have hnat : (GetDimensionIndexFromColumnRef (.boundColumnRef 0) ds [j]).toNat = j := by
    rw [hgd]
    simp
  have hlen : ¬((Expr.boundColumnRef 0 :: vs.map .boundConstant).length < 2) := by
    simp only [List.length_cons, List.length_map]
    omega
  rw [EncodeExpressionNode, if_neg (by simp), if_neg hlen, if_neg hd, collectConstants_map]
  simp only []
  rw [dif_pos hlt]
  simp only [hnat]
  rw [EncodeInFilter, if_pos ⟨hname, show vs.length > 1 by omega⟩]

/-- An IN node on the time dimension with exactly one value degenerates to
the time equality encode: both period bounds are set. -/
theorem encodeNodeInTimeSingle (ds : List Dimension) (j : Nat) (hj : j < ds.length)
    (hname : (ds.get ⟨j, hj⟩).name = TIME_PERIOD_DIMENSION_NAME)
    (hj31 : j < 2147483648) (v : String) (L : List EurostatFilter) (f : EurostatFilter)
    (sup : Bool) :
    EncodeExpressionNode (.boundOperator .COMPARE_IN
        [.boundColumnRef 0, .boundConstant ⟨false, v⟩]) ds [j] ⟨ds, L ++ [f], sup⟩ =
      .ok (true, ⟨ds, L ++ [{ f with
        start_period := "startPeriod=" ++ v,
        end_period := "endPeriod=" ++ v }], sup⟩) := by
  have hgd := getDim_single ds j hj31
  have hd : ¬(GetDimensionIndexFromColumnRef (.boundColumnRef 0) ds [j] = -1) := by
    rw [hgd]
    omega
  have hlt : 0 ≤ GetDimensionIndexFromColumnRef (.boundColumnRef 0) ds [j] ∧
      (GetDimensionIndexFromColumnRef (.boundColumnRef 0) ds [j]).toNat < ds.length := by
    rw [hgd]
    refine ⟨Int.natCast_nonneg j, ?_⟩
    simpa using hj
  have hnat : (GetDimensionIndexFromColumnRef (.boundColumnRef 0) ds [j]).toNat = j := by
    rw [hgd]
    simp
  rw [EncodeExpressionNode, if_neg (by simp), if_neg (by simp), if_neg hd]
  rw [show collectConstants [.boundConstant ⟨false, v⟩] = some [⟨false, v⟩] from rfl]
  simp only []
  rw [dif_pos hlt]
  simp only [hnat]
  rw [EncodeInFilter, if_neg (by simp)]
  rw [encodeInValues, encodeCC_time ds j hj hname v L f sup]
  simp only []
  rw [encodeInValues]

/-- A freshly initialised filter is empty. -/
theorem isEmpty_mk (ds : List Dimension) : (mkEurostatFilter ds).IsEmpty = true := by
  simp only [EurostatFilter.IsEmpty, mkEurostatFilter]
  simp [List.all_eq_true]
  intro d _
  rw [initMaskEntry]
  split
  · right
    rfl
  · left
    rfl

/-- A filter whose slot `j` holds a non-empty non-flag value is not empty. -/
theorem isEmpty_set_false (ds : List Dimension) (j : Nat) (hj : j < ds.length)
    (v : String) (hv : v ≠ "") (hvf : v ≠ VIRTUAL_DIMENSION_FLAG) :
    EurostatFilter.IsEmpty ⟨(ds.map initMaskEntry).set j v, "", ""⟩ = false := by
  have hmem : v ∈ (ds.map initMaskEntry).set j v :=
    List.mem_set (ds.map initMaskEntry) j (by rw [List.length_map]; exact hj) v
  have hall : ((ds.map initMaskEntry).set j v).all
      (fun m => m = "" || m = VIRTUAL_DIMENSION_FLAG) = false := by
    rw [List.all_eq_false]
    exact ⟨v, hmem, by simp [hv, hvf]⟩
  simp [EurostatFilter.IsEmpty, hall]

/-- A filter with both period bounds set is not empty. -/
theorem isEmpty_periods_false (f : EurostatFilter) (v : String) :
    EurostatFilter.IsEmpty { f with
      start_period := "startPeriod=" ++ v,
      end_period := "endPeriod=" ++ v } = false := by
  have h : ("startPeriod=" ++ v) ≠ "" := append_left_ne_empty _ _ (by decide)
  simp [EurostatFilter.IsEmpty, h]

/-- C3: for a top-level disjunction of two supported equality predicates on
the same plain (non-virtual, non-time) dimension with distinct usable
values, `EncodeExpression` returns `supported = true` with exactly two
distinct filter clauses, each obtained by writing exactly one of the two
values into mask slot `j` of its own branch (never one clause with the two
values joined by `"+"`); the trailing empty branch pushed after the last OR
arm is dropped by the emission loop. -/
theorem c3_or_fan_out :
    ∀ (ds : List Dimension) (j : Nat) (hj : j < ds.length),
      (ds.get ⟨j, hj⟩).position ≠ -1 →
      (ds.get ⟨j, hj⟩).name ≠ TIME_PERIOD_DIMENSION_NAME →
      j < 2147483648 →
      ∀ v1 v2 : String, v1 ≠ "" → v1 ≠ VIRTUAL_DIMENSION_FLAG →
        v2 ≠ "" → v2 ≠ VIRTUAL_DIMENSION_FLAG → v1 ≠ v2 →
        EncodeExpression
            [.boundConjunction .CONJUNCTION_OR
              [.boundComparison .COMPARE_EQUAL (.boundColumnRef 0)
                 (.boundConstant ⟨false, v1⟩),
               .boundComparison .COMPARE_EQUAL (.boundColumnRef 0)
                 (.boundConstant ⟨false, v2⟩)]] ds [j] =
          .ok ({ filters :=
                  [EurostatFilter.GetFilterString ⟨(ds.map initMaskEntry).set j v1, "", ""⟩,
                   EurostatFilter.GetFilterString ⟨(ds.map initMaskEntry).set j v2, "", ""⟩],
                 supported := true }, []) ∧
        EurostatFilter.GetFilterString ⟨(ds.map initMaskEntry).set j v1, "", ""⟩ ≠
          EurostatFilter.GetFilterString ⟨(ds.map initMaskEntry).set j v2, "", ""⟩ := by
  intro ds j hj hpos hname hj31 v1 v2 hv1 hv1f hv2 hv2f hne
  refine ⟨?_, getFilterString_set_inj (ds.map initMaskEntry) j v1 v2
    (by rw [List.length_map]; exact hj) hv1f hv2f hne⟩
  have e1 : encodeNodesOr
      [Expr.boundComparison .COMPARE_EQUAL (.boundColumnRef 0) (.boundConstant ⟨false, v1⟩),
       Expr.boundComparison .COMPARE_EQUAL (.boundColumnRef 0) (.boundConstant ⟨false, v2⟩)]
      ds [j] ⟨ds, [] ++ [mkEurostatFilter ds], false⟩ =
      .ok (true, ⟨ds, [⟨(ds.map initMaskEntry).set j v1, "", ""⟩,
        ⟨(ds.map initMaskEntry).set j v2, "", ""⟩] ++ [mkEurostatFilter ds], false⟩) := by
    rw [encodeNodesOr, encodeNodeEq ds j hj hpos hname hj31 v1 [] false]
    simp only []
    rw [show ((⟨ds, [] ++ [⟨(ds.map initMaskEntry).set j v1, "", ""⟩], false⟩ :
        EurostatFilterSet).PushEmptyFilter) =
        ⟨ds, [⟨(ds.map initMaskEntry).set j v1, "", ""⟩] ++ [mkEurostatFilter ds], false⟩
        from rfl]
    rw [encodeNodesOr, encodeNodeEq ds j hj hpos hname hj31 v2
      [⟨(ds.map initMaskEntry).set j v1, "", ""⟩] false]
    simp only []
    rw [show ((⟨ds, [⟨(ds.map initMaskEntry).set j v1, "", ""⟩] ++
        [⟨(ds.map initMaskEntry).set j v2, "", ""⟩], false⟩ :
        EurostatFilterSet).PushEmptyFilter) =
        ⟨ds, [⟨(ds.map initMaskEntry).set j v1, "", ""⟩,
          ⟨(ds.map initMaskEntry).set j v2, "", ""⟩] ++ [mkEurostatFilter ds], false⟩
        from rfl]
    rw [encodeNodesOr]
  have e2 : EncodeExpressionNode
      (.boundConjunction .CONJUNCTION_OR
        [.boundComparison .COMPARE_EQUAL (.boundColumnRef 0) (.boundConstant ⟨false, v1⟩),
         .boundComparison .COMPARE_EQUAL (.boundColumnRef 0) (.boundConstant ⟨false, v2⟩)])
      ds [j] ⟨ds, [] ++ [mkEurostatFilter ds], false⟩ =
      .ok (true, ⟨ds, [⟨(ds.map initMaskEntry).set j v1, "", ""⟩,
        ⟨(ds.map initMaskEntry).set j v2, "", ""⟩] ++ [mkEurostatFilter ds], false⟩) := by
    rw [EncodeExpressionNode, if_neg (by simp), if_pos rfl]
    exact e1
  have hemit : emitFilters ⟨ds, [⟨(ds.map initMaskEntry).set j v1, "", ""⟩,
      ⟨(ds.map initMaskEntry).set j v2, "", ""⟩] ++ [mkEurostatFilter ds], false⟩ =
      [EurostatFilter.GetFilterString ⟨(ds.map initMaskEntry).set j v1, "", ""⟩,
       EurostatFilter.GetFilterString ⟨(ds.map initMaskEntry).set j v2, "", ""⟩] := by
    simp [emitFilters, List.filter, isEmpty_set_false ds j hj v1 hv1 hv1f,
      isEmpty_set_false ds j hj v2 hv2 hv2f, isEmpty_mk ds]
  rw [EncodeExpression, if_neg (by simp)]
  rw [show (initFilterSet ds) = (⟨ds, [] ++ [mkEurostatFilter ds], false⟩ :
    EurostatFilterSet) from rfl]
  rw [encodeExprList, e2]
  simp only []
  rw [encodeExprList]
  simp only []
  rw [hemit]
  simp

/-- Witness for C3 on the example schema: `geo = 'AL' OR geo = 'BE'`
fans out into two distinct single-value clauses. -/
theorem c3_or_fan_out_witness :
    EncodeExpression
        [.boundConjunction .CONJUNCTION_OR
          [.boundComparison .COMPARE_EQUAL (.boundColumnRef 0) (.boundConstant ⟨false, "AL"⟩),
           .boundComparison .COMPARE_EQUAL (.boundColumnRef 0) (.boundConstant ⟨false, "BE"⟩)]]
        dsExample [0] =
      .ok ({ filters :=
              [EurostatFilter.GetFilterString ⟨(dsExample.map initMaskEntry).set 0 "AL", "", ""⟩,
               EurostatFilter.GetFilterString ⟨(dsExample.map initMaskEntry).set 0 "BE", "", ""⟩],
             supported := true }, []) ∧
    EurostatFilter.GetFilterString ⟨(dsExample.map initMaskEntry).set 0 "AL", "", ""⟩ ≠
      EurostatFilter.GetFilterString ⟨(dsExample.map initMaskEntry).set 0 "BE", "", ""⟩ :=
  c3_or_fan_out dsExample 0 (by decide) (by decide) (by decide) (by decide)
    "AL" "BE" (by decide) (by decide) (by decide) (by decide) (by decide)

/-- C5: membership encoding.  First conjunct: an IN over constants on a
plain (non-virtual, non-time) dimension compiles to exactly one filter
clause whose selector for slot `j` is the values joined by `"+"` in the
given order, accumulated into the same single branch.  Second conjunct:
an IN on the time dimension with more than one value is unsupported (no
clauses, expressions retained).  Third conjunct: an IN on the time
dimension with exactly one value behaves as time equality, setting both
`startPeriod` and `endPeriod` on the single emitted clause. -/
theorem c5_in_membership :
    (∀ (ds : List Dimension) (j : Nat) (hj : j < ds.length),
       (ds.get ⟨j, hj⟩).position ≠ -1 →
       (ds.get ⟨j, hj⟩).name ≠ TIME_PERIOD_DIMENSION_NAME →
       j < 2147483648 →
       ∀ (v : String) (rest : List String), v ≠ "" →
         joinPlus (v :: rest) ≠ VIRTUAL_DIMENSION_FLAG →
         EncodeExpression
             [.boundOperator .COMPARE_IN (.boundColumnRef 0 ::
               ((v :: rest).map (fun x => (⟨false, x⟩ : EsValue))).map .boundConstant)]
             ds [j] =
           .ok ({ filters := [EurostatFilter.GetFilterString
                   ⟨(ds.map initMaskEntry).set j (joinPlus (v :: rest)), "", ""⟩],
                  supported := true }, [])) ∧
    (∀ (ds : List Dimension) (j : Nat) (hj : j < ds.length),
       (ds.get ⟨j, hj⟩).name = TIME_PERIOD_DIMENSION_NAME →
       j < 2147483648 →
       ∀ vs : List EsValue, 2 ≤ vs.length →
         EncodeExpression
             [.boundOperator .COMPARE_IN (.boundColumnRef 0 :: vs.map .boundConstant)]
             ds [j] =
           .ok ({ filters := [], supported := false },
             [.boundOperator .COMPARE_IN (.boundColumnRef 0 :: vs.map .boundConstant)])) ∧
    (∀ (ds : List Dimension) (j : Nat) (hj : j < ds.length),
       (ds.get ⟨j, hj⟩).name = TIME_PERIOD_DIMENSION_NAME →
       j < 2147483648 →
       ∀ v : String,
         EncodeExpression
             [.boundOperator .COMPARE_IN [.boundColumnRef 0, .boundConstant ⟨false, v⟩]]
             ds [j] =
           .ok ({ filters := [EurostatFilter.GetFilterString { mkEurostatFilter ds with
                   start_period := "startPeriod=" ++ v,
                   end_period := "endPeriod=" ++ v }],
                  supported := true }, [])) := by
  refine ⟨?_, ?_, ?_⟩
  · intro ds j hj hpos hname hj31 v rest hv hflag
    have hjoin : joinPlus (v :: rest) ≠ "" := by
      rw [joinPlus]
      exact append_left_ne_empty _ _ hv
    have e2 := encodeNodeIn ds j hj hpos hname hj31 v hv rest [] false
    rw [EncodeExpression, if_neg (by simp)]
    rw [show (initFilterSet ds) = (⟨ds, [] ++ [mkEurostatFilter ds], false⟩ :
      EurostatFilterSet) from rfl]
    rw [encodeExprList, e2]
    simp only []
    rw [encodeExprList]
    simp only []
    have hemit : emitFilters ⟨ds, [] ++
        [⟨(ds.map initMaskEntry).set j (joinPlus (v :: rest)), "", ""⟩], false⟩ =
        [EurostatFilter.GetFilterString
          ⟨(ds.map initMaskEntry).set j (joinPlus (v :: rest)), "", ""⟩] := by
      simp [emitFilters, List.filter, isEmpty_set_false ds j hj _ hjoin hflag]
    rw [hemit]
    simp
  · intro ds j hj hname hj31 vs h2
    have e2 := encodeNodeInTimeMulti ds j hj hname hj31 vs h2 (initFilterSet ds)
    rw [EncodeExpression, if_neg (by simp)]
    rw [encodeExprList, e2]
  · intro ds j hj hname hj31 v
    have e2 := encodeNodeInTimeSingle ds j hj hname hj31 v [] (mkEurostatFilter ds) false
    rw [EncodeExpression, if_neg (by simp)]
    rw [show (initFilterSet ds) = (⟨ds, [] ++ [mkEurostatFilter ds], false⟩ :
      EurostatFilterSet) from rfl]
    rw [encodeExprList, e2]
    simp only []
    rw [encodeExprList]
    simp only []
    have hemit : emitFilters ⟨ds, [] ++ [{ mkEurostatFilter ds with
        start_period := "startPeriod=" ++ v,
        end_period := "endPeriod=" ++ v }], false⟩ =
        [EurostatFilter.GetFilterString { mkEurostatFilter ds with
          start_period := "startPeriod=" ++ v,
          end_period := "endPeriod=" ++ v }] := by
      simp [emitFilters, List.filter, isEmpty_periods_false (mkEurostatFilter ds) v]
    rw [hemit]
    simp

/-- Witness for C5 on the example schema: `geo IN ('AL','BE','FR')` yields
one clause with the joined selector; `time_period IN ('2010','2020')` is
unsupported with the expressions retained; `time_period IN ('2015')` sets
both period bounds. -/
theorem c5_in_membership_witness :
    EncodeExpression [.boundOperator .COMPARE_IN (.boundColumnRef 0 ::
        (["AL", "BE", "FR"].map (fun x => (⟨false, x⟩ : EsValue))).map .boundConstant)]
      dsExample [0] =
      .ok ({ filters := [EurostatFilter.GetFilterString
              ⟨(dsExample.map initMaskEntry).set 0 (joinPlus ["AL", "BE", "FR"]), "", ""⟩],
             supported := true }, []) ∧
    EncodeExpression [.boundOperator .COMPARE_IN (.boundColumnRef 0 ::
        ([⟨false, "2010"⟩, ⟨false, "2020"⟩] : List EsValue).map .boundConstant)]
      dsExample [2] =
      .ok ({ filters := [], supported := false },
        [.boundOperator .COMPARE_IN (.boundColumnRef 0 ::
          ([⟨false, "2010"⟩, ⟨false, "2020"⟩] : List EsValue).map .boundConstant)]) ∧
    EncodeExpression [.boundOperator .COMPARE_IN
        [.boundColumnRef 0, .boundConstant ⟨false, "2015"⟩]] dsExample [2] =
      .ok ({ filters := [EurostatFilter.GetFilterString { mkEurostatFilter dsExample with
              start_period := "startPeriod=" ++ "2015",
              end_period := "endPeriod=" ++ "2015" }],
             supported := true }, []) :=
  ⟨c5_in_membership.1 dsExample 0 (by decide) (by decide) (by decide) (by decide)
     "AL" ["BE", "FR"] (by decide) (by decide),
   c5_in_membership.2.1 dsExample 2 (by decide) (by decide) (by decide)
     [⟨false, "2010"⟩, ⟨false, "2020"⟩] (by decide),
   c5_in_membership.2.2 dsExample 2 (by decide) (by decide) (by decide) "2015"⟩

end EurostatSpec
